import Mathlib

/-!
Verification of the RailTrack obstacle-detection decision pipeline.

This file is a shallow embedding, in Lean 4, of the decision pipeline of the
RailTrack railway obstacle-detection system: severity classification
(`src/severity_classification.py`), distance and time-to-collision estimation
and collision-risk scoring (`src/distance_ttc.py`), track-zone classification
(`src/track_segmentation.py`), the centroid obstacle tracker
(`src/obstacle_detection.py`), the multi-frame confirmation component
(`src/multi_frame_confirmation.py`) and the per-frame orchestration of
`main.py`.  Python floats are modelled as exact rationals, with a dedicated
constructor for `float('inf')`; Euclidean-norm comparisons are carried out on
squared distances, which agrees with the source because squaring is monotone
on nonnegative reals.
-/

namespace RailTrack

/-- A Python float value as used by the pipeline: either a finite value
(modelled exactly as a rational) or `float('inf')`. -/
inductive PyFloat where
  | inf : PyFloat
  | val : ℚ → PyFloat
deriving DecidableEq

/-- `x < q` for a possibly-infinite float `x` against a finite rational
threshold `q`; `float('inf') < q` is false in Python. -/
def PyFloat.lt (x : PyFloat) (q : ℚ) : Bool :=
  match x with
  | .inf => false
  | .val v => decide (v < q)

/-- Specification-side reading of `PyFloat.lt`: the value is finite and below
the threshold. -/
def PyFloat.Below (x : PyFloat) (q : ℚ) : Prop :=
  ∃ v, x = PyFloat.val v ∧ v < q

theorem PyFloat.lt_eq_true_iff (x : PyFloat) (q : ℚ) :
    x.lt q = true ↔ x.Below q := by
  cases x with
  | inf => simp [PyFloat.lt, PyFloat.Below]
  | val v => simp [PyFloat.lt, PyFloat.Below]

/-! ### Severity classification (`src/severity_classification.py`) -/

/-- `SeverityClassifier._is_critical` (lines 71-87). -/
def is_critical (cls zone : String) (ttc : PyFloat) (isStatic : Bool) : Bool :=
  [ cls == "human" && zone == "critical" && ttc.lt 20,
    cls == "vehicle" && zone == "critical" && ttc.lt 15,
    isStatic && zone == "critical" && ttc.lt 25,
    (cls == "human" || cls == "vehicle") && zone == "critical" && ttc.lt 10
  ].any id

/-- `SeverityClassifier._is_high` (lines 89-108). -/
def is_high (cls zone : String) (ttc : PyFloat) (isStatic : Bool) : Bool :=
  [ cls == "human" && zone == "warning" && ttc.lt 40,
    cls == "animal" && zone == "critical",
    cls == "debris" && zone == "critical" && isStatic,
    cls == "vehicle" && zone == "warning" && ttc.lt 30,
    zone == "critical" && ttc.lt 40
  ].any id

/-- `SeverityClassifier._is_medium` (lines 110-129). -/
def is_medium (cls zone : String) (ttc : PyFloat) : Bool :=
  [ cls == "animal" && zone == "warning",
    cls == "debris" && zone == "critical",
    cls == "vehicle" && zone == "warning" && ttc.lt 60,
    cls == "human" && ttc.lt 60,
    zone == "critical" && ttc.lt 60
  ].any id

/-- `SeverityClassifier.classify` (lines 34-69): first matching tier wins,
default `'low'`. -/
def classify (cls zone : String) (ttc : PyFloat) (isStatic : Bool) : String :=
  if is_critical cls zone ttc isStatic then "critical"
  else if is_high cls zone ttc isStatic then "high"
  else if is_medium cls zone ttc then "medium"
  else "low"

/-- The critical-tier condition as the specification words it. -/
def SpecCritical (cls zone : String) (ttc : PyFloat) (isStatic : Bool) : Prop :=
  (cls = "human" ∧ zone = "critical" ∧ ttc.Below 20) ∨
  (cls = "vehicle" ∧ zone = "critical" ∧ ttc.Below 15) ∨
  (isStatic = true ∧ zone = "critical" ∧ ttc.Below 25) ∨
  ((cls = "human" ∨ cls = "vehicle") ∧ zone = "critical" ∧ ttc.Below 10)

/-- The high-tier condition as the specification words it. -/
def SpecHigh (cls zone : String) (ttc : PyFloat) (isStatic : Bool) : Prop :=
  (cls = "human" ∧ zone = "warning" ∧ ttc.Below 40) ∨
  (cls = "animal" ∧ zone = "critical") ∨
  (cls = "debris" ∧ zone = "critical" ∧ isStatic = true) ∨
  (cls = "vehicle" ∧ zone = "warning" ∧ ttc.Below 30) ∨
  (zone = "critical" ∧ ttc.Below 40)

/-- The medium-tier condition as the specification words it. -/
def SpecMedium (cls zone : String) (ttc : PyFloat) : Prop :=
  (cls = "animal" ∧ zone = "warning") ∨
  (cls = "debris" ∧ zone = "critical") ∨
  (cls = "vehicle" ∧ zone = "warning" ∧ ttc.Below 60) ∨
  (cls = "human" ∧ ttc.Below 60) ∨
  (zone = "critical" ∧ ttc.Below 60)

theorem is_critical_iff (cls zone : String) (ttc : PyFloat) (isStatic : Bool) :
    is_critical cls zone ttc isStatic = true ↔ SpecCritical cls zone ttc isStatic := by
  simp only [is_critical, SpecCritical, List.any_cons, List.any_nil, id_eq,
    Bool.or_eq_true, Bool.and_eq_true, beq_iff_eq, PyFloat.lt_eq_true_iff]
  tauto

theorem is_high_iff (cls zone : String) (ttc : PyFloat) (isStatic : Bool) :
    is_high cls zone ttc isStatic = true ↔ SpecHigh cls zone ttc isStatic := by
  simp only [is_high, SpecHigh, List.any_cons, List.any_nil, id_eq,
    Bool.or_eq_true, Bool.and_eq_true, beq_iff_eq, PyFloat.lt_eq_true_iff]
  tauto

theorem is_medium_iff (cls zone : String) (ttc : PyFloat) :
    is_medium cls zone ttc = true ↔ SpecMedium cls zone ttc := by
  simp only [is_medium, SpecMedium, List.any_cons, List.any_nil, id_eq,
    Bool.or_eq_true, Bool.and_eq_true, beq_iff_eq, PyFloat.lt_eq_true_iff]
  tauto

/-- C1: `SeverityClassifier.classify` returns 'critical' iff one of the four
critical predicates holds; otherwise 'high' iff one of the five high
predicates holds; otherwise 'medium' iff one of the five medium predicates
holds; otherwise 'low'.  In particular {human, zone=critical, ttc=15} is
'critical' and {animal, zone=warning, ttc=45} is 'medium'. -/
theorem classify_spec (cls zone : String) (ttc : PyFloat) (isStatic : Bool) :
    (classify cls zone ttc isStatic = "critical" ↔ SpecCritical cls zone ttc isStatic) ∧
    (¬ SpecCritical cls zone ttc isStatic →
      (classify cls zone ttc isStatic = "high" ↔ SpecHigh cls zone ttc isStatic)) ∧
    (¬ SpecCritical cls zone ttc isStatic → ¬ SpecHigh cls zone ttc isStatic →
      (classify cls zone ttc isStatic = "medium" ↔ SpecMedium cls zone ttc)) ∧
    (¬ SpecCritical cls zone ttc isStatic → ¬ SpecHigh cls zone ttc isStatic →
      ¬ SpecMedium cls zone ttc → classify cls zone ttc isStatic = "low") ∧
    (∀ s : Bool, classify "human" "critical" (PyFloat.val 15) s = "critical") ∧
    (∀ s : Bool, classify "animal" "warning" (PyFloat.val 45) s = "medium") := by
  have hc := is_critical_iff cls zone ttc isStatic
  have hh := is_high_iff cls zone ttc isStatic
  have hm := is_medium_iff cls zone ttc
  refine ⟨?_, ?_, ?_, ?_, ?_, ?_⟩
  · unfold classify
    split_ifs with h1 h2 h3 <;> simp_all
  · intro hnc
    rw [← hc, Bool.not_eq_true] at hnc
    unfold classify
    split_ifs with h1 h2 h3 <;> simp_all
  · intro hnc hnh
    rw [← hc, Bool.not_eq_true] at hnc
    rw [← hh, Bool.not_eq_true] at hnh
    unfold classify
    split_ifs with h1 h2 h3 <;> simp_all
  · intro hnc hnh hnm
    rw [← hc, Bool.not_eq_true] at hnc
    rw [← hh, Bool.not_eq_true] at hnh
    rw [← hm, Bool.not_eq_true] at hnm
    unfold classify
    split_ifs with h1 h2 h3 <;> simp_all
  · intro s; cases s <;> rfl
  · intro s; cases s <;> rfl

/-- Witness for `classify_spec`: a concrete low-severity input satisfying all
three negative hypotheses. -/
theorem classify_spec_witness :
    ¬ SpecCritical "debris" "warning" (PyFloat.val 100) false ∧
    classify "debris" "warning" (PyFloat.val 100) false = "low" := by
  have hnc : ¬ SpecCritical "debris" "warning" (PyFloat.val 100) false := by
    rw [← is_critical_iff]; decide
  have hnh : ¬ SpecHigh "debris" "warning" (PyFloat.val 100) false := by
    rw [← is_high_iff]; decide
  have hnm : ¬ SpecMedium "debris" "warning" (PyFloat.val 100) := by
    rw [← is_medium_iff]; decide
  exact ⟨hnc, (classify_spec "debris" "warning" (PyFloat.val 100) false).2.2.2.1 hnc hnh hnm⟩

/-! ### Distance and time-to-collision (`src/distance_ttc.py`) -/

/-- The default `known_object_heights` table together with the
`dict.get(class, 1.0)` fallback used by `DistanceEstimator.estimate_distance`. -/
def known_height (cls : String) : ℚ :=
  if cls = "human" then 17/10
  else if cls = "vehicle" then 3/2
  else if cls = "animal" then 4/5
  else if cls = "debris" then 3/10
  else 1

/-- `DistanceEstimator.estimate_distance` (lines 53-78): pinhole distance
`known_height * focal_length / pixel_height`, infinity on zero pixel height,
clamped to be nonnegative.  The focal length (config default 800) is a
parameter. -/
def estimate_distance (focal : ℚ) (cls : String) (bbox : ℚ × ℚ × ℚ × ℚ) : PyFloat :=
  let pixel_height := bbox.2.2.2 - bbox.2.1
  if pixel_height = 0 then PyFloat.inf
  else PyFloat.val (max 0 (known_height cls * focal / pixel_height))

/-- `DistanceEstimator.calculate_ttc` (lines 80-103): speed 0 gives infinity,
otherwise distance divided by the speed converted to m/s (km/h divided by
3.6 = 18/5). -/
def calculate_ttc (distance : PyFloat) (speedKmh : ℚ) : PyFloat :=
  if speedKmh = 0 then PyFloat.inf
  else
    match distance with
    | .inf => PyFloat.inf
    | .val d => PyFloat.val (d / (speedKmh / (18/5)))

/-- C2: `estimate_distance` returns infinity exactly on zero pixel height and
otherwise `max 0 (known_height * focal / (y2 - y1))`; `calculate_ttc` returns
infinity exactly at speed 0 and otherwise `d / (s / 3.6)`; and the worked
example: a human with bbox (200,200,250,400) at focal length 800 is 6.8 m
away, with TTC 6.8 / (60/3.6) = 0.408 s at 60 km/h. -/
theorem distance_ttc_spec (focal : ℚ) (cls : String) (x1 y1 x2 y2 : ℚ) (d s : ℚ) :
    (y2 - y1 = 0 → estimate_distance focal cls (x1, y1, x2, y2) = PyFloat.inf) ∧
    (y2 - y1 ≠ 0 → estimate_distance focal cls (x1, y1, x2, y2) =
        PyFloat.val (max 0 (known_height cls * focal / (y2 - y1)))) ∧
    (s = 0 → calculate_ttc (PyFloat.val d) s = PyFloat.inf) ∧
    (s ≠ 0 → calculate_ttc (PyFloat.val d) s = PyFloat.val (d / (s / (18/5)))) ∧
    estimate_distance 800 "human" (200, 200, 250, 400) = PyFloat.val (34/5) ∧
    calculate_ttc (PyFloat.val (34/5)) 60 = PyFloat.val (51/125) := by
  refine ⟨?_, ?_, ?_, ?_, ?_, ?_⟩
  · intro h; simp [estimate_distance, h]
  · intro h; simp [estimate_distance, h]
  · intro h; simp [calculate_ttc, h]
  · intro h; simp [calculate_ttc, h]
  · simp only [estimate_distance, known_height]; norm_num
  · simp only [calculate_ttc]; norm_num

/-- Witness for `distance_ttc_spec` at a concrete nonzero pixel height and a
concrete zero speed. -/
theorem distance_ttc_spec_witness :
    ((400 : ℚ) - 200 ≠ 0 ∧ estimate_distance 800 "human" (200, 200, 250, 400) =
      PyFloat.val (max 0 (known_height "human" * 800 / (400 - 200)))) ∧
    ((0 : ℚ) = 0 ∧ calculate_ttc (PyFloat.val 5) 0 = PyFloat.inf) :=
  ⟨⟨by norm_num, (distance_ttc_spec 800 "human" 200 200 250 400 5 0).2.1 (by norm_num)⟩,
   ⟨rfl, (distance_ttc_spec 800 "human" 200 200 250 400 5 0).2.2.1 rfl⟩⟩

/-! ### Collision risk scoring (`src/distance_ttc.py`, `CollisionRiskAssessor`) -/

/-- `CollisionRiskAssessor._calculate_risk_score` (lines 248-296): base score
by class, zone multiplier, additive TTC bonus, additive static bonus, clamped
to at most 100. -/
def calculate_risk_score (cls zone : String) (ttc : PyFloat) (isStatic : Bool) : ℚ :=
  let base : ℚ :=
    if cls = "human" then 40
    else if cls = "vehicle" then 35
    else if cls = "animal" then 30
    else if cls = "debris" then 20
    else 25
  let mult : ℚ :=
    if zone = "critical" then 2
    else if zone = "warning" then 3/2
    else if zone = "safe" then 1/2
    else 1
  let afterZone := base * mult
  let afterTtc := afterZone +
    (if ttc.lt 10 then 30 else if ttc.lt 20 then 20 else if ttc.lt 40 then 10 else 0)
  let afterStatic := afterTtc + (if isStatic then 10 else 0)
  min 100 afterStatic

/-- `CollisionRiskAssessor._get_risk_level` (lines 298-307). -/
def get_risk_level (score : ℚ) : String :=
  if score ≥ 75 then "critical"
  else if score ≥ 50 then "high"
  else if score ≥ 25 then "medium"
  else "low"

/-- Base score by obstacle class, as the specification words it. -/
def specBaseScore (cls : String) : ℚ :=
  if cls = "human" then 40
  else if cls = "vehicle" then 35
  else if cls = "animal" then 30
  else if cls = "debris" then 20
  else 25

/-- Zone multiplier, as the specification words it. -/
def specZoneMult (zone : String) : ℚ :=
  if zone = "critical" then 2
  else if zone = "warning" then 3/2
  else if zone = "safe" then 1/2
  else 1

/-- TTC bonus, as the specification words it. -/
def specTtcBonus (ttc : PyFloat) : ℚ :=
  if ttc.lt 10 then 30 else if ttc.lt 20 then 20 else if ttc.lt 40 then 10 else 0

/-- Static bonus, as the specification words it. -/
def specStaticBonus (isStatic : Bool) : ℚ := if isStatic then 10 else 0

/-- C5: the risk score equals
`min 100 (base * mult + ttc_bonus + static_bonus)` with the tables of the
specification, and the risk level is read off the score in half-open bands
with inclusive lower bounds 75 / 50 / 25. -/
theorem risk_score_spec (cls zone : String) (ttc : PyFloat) (isStatic : Bool) (score : ℚ) :
    calculate_risk_score cls zone ttc isStatic =
      min 100 (specBaseScore cls * specZoneMult zone + specTtcBonus ttc +
        specStaticBonus isStatic) ∧
    (75 ≤ score → get_risk_level score = "critical") ∧
    (50 ≤ score → score < 75 → get_risk_level score = "high") ∧
    (25 ≤ score → score < 50 → get_risk_level score = "medium") ∧
    (score < 25 → get_risk_level score = "low") := by
  refine ⟨rfl, ?_, ?_, ?_, ?_⟩
  · intro h; simp [get_risk_level, h]
  · intro h1 h2
    unfold get_risk_level
    split_ifs with g1 _g2 <;> first | rfl | linarith
  · intro h1 h2
    unfold get_risk_level
    split_ifs with g1 g2 _g3 <;> first | rfl | linarith
  · intro h
    unfold get_risk_level
    split_ifs with g1 g2 g3 <;> first | rfl | linarith

/-- Witness for `risk_score_spec` at a concrete score in the 'high' band. -/
theorem risk_score_spec_witness :
    ((50 : ℚ) ≤ 60 ∧ (60 : ℚ) < 75) ∧ get_risk_level 60 = "high" :=
  ⟨⟨by norm_num, by norm_num⟩,
   (risk_score_spec "human" "critical" PyFloat.inf false 60).2.2.1 (by norm_num) (by norm_num)⟩

/-! ### Track-zone classification (`src/track_segmentation.py`) -/

/-- The geometric configuration of `TrackSegmentation` after
`initialize_frame_dimensions`: fractional track band and zone widths plus the
frame size. -/
structure ZoneConfig where
  track_top_y : ℚ
  track_bottom_y : ℚ
  critical_zone_width : ℚ
  warning_zone_width : ℚ
  frame_width : ℚ
  frame_height : ℚ
deriving DecidableEq

/-- The config-file defaults: track band [0.4, 0.95], critical width 0.25,
warning width 0.40. -/
def defaultZoneConfig (w h : ℚ) : ZoneConfig := ⟨2/5, 19/20, 1/4, 2/5, w, h⟩

/-- `TrackSegmentation.classify_zone` (lines 162-196). -/
def classify_zone (cfg : ZoneConfig) (bbox : ℚ × ℚ × ℚ × ℚ) : String :=
  let center_x := (bbox.1 + bbox.2.2.1) / 2
  let center_y := (bbox.2.1 + bbox.2.2.2) / 2
  let norm_x := center_x / cfg.frame_width
  let norm_y := center_y / cfg.frame_height
  if norm_y < cfg.track_top_y ∨ norm_y > cfg.track_bottom_y then "safe"
  else
    let dist := |norm_x - 1/2|
    if dist ≤ cfg.critical_zone_width / 2 then "critical"
    else if dist ≤ cfg.warning_zone_width / 2 then "warning"
    else "safe"

/-- Normalized vertical coordinate of a bbox center, as the spec words it. -/
def norm_center_y (cfg : ZoneConfig) (bbox : ℚ × ℚ × ℚ × ℚ) : ℚ :=
  ((bbox.2.1 + bbox.2.2.2) / 2) / cfg.frame_height

/-- Horizontal distance of the normalized bbox center from the track
center 0.5, as the spec words it. -/
def center_offset (cfg : ZoneConfig) (bbox : ℚ × ℚ × ℚ × ℚ) : ℚ :=
  |((bbox.1 + bbox.2.2.1) / 2) / cfg.frame_width - 1/2|

/-- C6: `classify_zone` is 'safe' outside the vertical band
[track_top_y, track_bottom_y]; inside the band it is 'critical' within
critical_zone_width/2 of the center, 'warning' within warning_zone_width/2,
else 'safe'; and a bbox centered exactly at (0.5·W, midpoint of the band)
classifies as 'critical'. -/
theorem classify_zone_spec (cfg : ZoneConfig) (bbox : ℚ × ℚ × ℚ × ℚ) :
    ((norm_center_y cfg bbox < cfg.track_top_y ∨
        cfg.track_bottom_y < norm_center_y cfg bbox) →
      classify_zone cfg bbox = "safe") ∧
    (cfg.track_top_y ≤ norm_center_y cfg bbox →
     norm_center_y cfg bbox ≤ cfg.track_bottom_y →
      (center_offset cfg bbox ≤ cfg.critical_zone_width / 2 →
        classify_zone cfg bbox = "critical") ∧
      (cfg.critical_zone_width / 2 < center_offset cfg bbox →
        center_offset cfg bbox ≤ cfg.warning_zone_width / 2 →
        classify_zone cfg bbox = "warning") ∧
      (cfg.critical_zone_width / 2 < center_offset cfg bbox →
        cfg.warning_zone_width / 2 < center_offset cfg bbox →
        classify_zone cfg bbox = "safe")) ∧
    (cfg.track_top_y ≤ cfg.track_bottom_y → 0 ≤ cfg.critical_zone_width →
     cfg.frame_width ≠ 0 → cfg.frame_height ≠ 0 →
     (bbox.1 + bbox.2.2.1) / 2 = cfg.frame_width / 2 →
     (bbox.2.1 + bbox.2.2.2) / 2 =
       cfg.frame_height * ((cfg.track_top_y + cfg.track_bottom_y) / 2) →
     classify_zone cfg bbox = "critical") := by
  have key : classify_zone cfg bbox =
      (if norm_center_y cfg bbox < cfg.track_top_y ∨
          cfg.track_bottom_y < norm_center_y cfg bbox then "safe"
       else if center_offset cfg bbox ≤ cfg.critical_zone_width / 2 then "critical"
       else if center_offset cfg bbox ≤ cfg.warning_zone_width / 2 then "warning"
       else "safe") := rfl
  refine ⟨?_, ?_, ?_⟩
  · intro h
    rw [key, if_pos h]
  · intro h1 h2
    have hno : ¬(norm_center_y cfg bbox < cfg.track_top_y ∨
        cfg.track_bottom_y < norm_center_y cfg bbox) := by
      push_neg
      exact ⟨h1, h2⟩
    refine ⟨?_, ?_, ?_⟩
    · intro h3
      rw [key, if_neg hno, if_pos h3]
    · intro h3 h4
      rw [key, if_neg hno, if_neg (not_le.mpr h3), if_pos h4]
    · intro h3 h4
      rw [key, if_neg hno, if_neg (not_le.mpr h3), if_neg (not_le.mpr h4)]
  · intro htb hcw hfw hfh hx hy
    have hny : norm_center_y cfg bbox = (cfg.track_top_y + cfg.track_bottom_y) / 2 := by
      unfold norm_center_y
      rw [hy, mul_comm, mul_div_assoc, div_self hfh, mul_one]
    have hhalf : cfg.frame_width / 2 / cfg.frame_width = 1 / 2 := by
      field_simp
      ring
    have hdx : center_offset cfg bbox = 0 := by
      unfold center_offset
      rw [hx, hhalf]
      simp
    have h1 : cfg.track_top_y ≤ norm_center_y cfg bbox := by rw [hny]; linarith
    have h2 : norm_center_y cfg bbox ≤ cfg.track_bottom_y := by rw [hny]; linarith
    have hno : ¬(norm_center_y cfg bbox < cfg.track_top_y ∨
        cfg.track_bottom_y < norm_center_y cfg bbox) := by
      push_neg
      exact ⟨h1, h2⟩
    rw [key, if_neg hno, if_pos]
    rw [hdx]
    positivity

/-- Witness for `classify_zone_spec`: the default geometry on a 640×480 frame
with a bbox centered at (320, 324), the exact band midpoint. -/
theorem classify_zone_spec_witness :
    ((2:ℚ)/5 ≤ 19/20 ∧ (0:ℚ) ≤ 1/4 ∧ (640:ℚ) ≠ 0 ∧ (480:ℚ) ≠ 0) ∧
    classify_zone (defaultZoneConfig 640 480) (300, 300, 340, 348) = "critical" := by
  refine ⟨⟨by norm_num, by norm_num, by norm_num, by norm_num⟩, ?_⟩
  exact (classify_zone_spec (defaultZoneConfig 640 480) (300, 300, 340, 348)).2.2
    (by norm_num [defaultZoneConfig]) (by norm_num [defaultZoneConfig])
    (by norm_num [defaultZoneConfig]) (by norm_num [defaultZoneConfig])
    (by norm_num [defaultZoneConfig]) (by norm_num [defaultZoneConfig])

/-! ### Obstacle tracking (`src/obstacle_detection.py`, `ObstacleTracker`) -/

/-- A detection as produced by `ObstacleDetector.detect`: class, confidence
and bbox corners. -/
structure Detection where
  cls : String
  confidence : ℚ
  x1 : ℚ
  y1 : ℚ
  x2 : ℚ
  y2 : ℚ
deriving DecidableEq

/-- Center of a detection's bounding box (`ObstacleTracker._get_center`). -/
def detCenter (d : Detection) : ℚ × ℚ := ((d.x1 + d.x2) / 2, (d.y1 + d.y2) / 2)

/-- Squared Euclidean distance.  The source compares `np.linalg.norm`
distances with `<`; comparing squares is equivalent because squaring is
monotone on nonnegative reals, and it keeps everything rational. -/
def sqDist (p q : ℚ × ℚ) : ℚ := (p.1 - q.1) * (p.1 - q.1) + (p.2 - q.2) * (p.2 - q.2)

/-- One tracked object.  The `objects` and `disappeared` dictionaries of
`ObstacleTracker` always hold exactly the same keys (register inserts into
both, deregister deletes from both), so they are modelled as a single
insertion-ordered association list of records. -/
structure Track where
  id : ℕ
  det : Detection
  disappeared : ℕ
deriving DecidableEq

/-- The mutable state of an `ObstacleTracker`. -/
structure TrackerState where
  maxDisappeared : ℕ
  nextObjectId : ℕ
  tracks : List Track
deriving DecidableEq

/-- A fresh `ObstacleTracker(max_disappeared)`. -/
def trackerInit (m : ℕ) : TrackerState := ⟨m, 0, []⟩

/-- Dictionary lookup by track id. -/
def findTrack (ts : List Track) (i : ℕ) : Option Track :=
  ts.find? (fun t => t.id == i)

/-- Dictionary value assignment for the track with id `i`. -/
def updTrack (ts : List Track) (i : ℕ) (f : Track → Track) : List Track :=
  ts.map (fun t => if t.id == i then f t else t)

/-- `ObstacleTracker.register` (lines 305-318): the new track gets the current
`next_object_id`, counter 0, and the counter is incremented. -/
def register (s : TrackerState) (d : Detection) : TrackerState :=
  { s with nextObjectId := s.nextObjectId + 1,
           tracks := s.tracks ++ [⟨s.nextObjectId, d, 0⟩] }

/-- `ObstacleTracker.deregister` (lines 320-328). -/
def deregister (s : TrackerState) (i : ℕ) : TrackerState :=
  { s with tracks := s.tracks.filter (fun t => t.id != i) }

/-- One candidate comparison of the minimum-distance scan inside
`ObstacleTracker.update`: keep the running best unless track `i` is strictly
nearer (Python starts from `min_distance = inf`, so the first live candidate
always replaces an empty accumulator). -/
def bmStep (ts : List Track) (c : ℚ × ℚ) (acc : Option (ℕ × ℚ)) (i : ℕ) :
    Option (ℕ × ℚ) :=
  match findTrack ts i with
  | none => acc
  | some t =>
    match acc with
    | none => some (i, sqDist c (detCenter t.det))
    | some (j, best) =>
      if sqDist c (detCenter t.det) < best
      then some (i, sqDist c (detCenter t.det))
      else some (j, best)

/-- The minimum-distance scan of `ObstacleTracker.update`: the nearest
still-unmatched track (strict improvement only, so the first-registered track
wins ties), with its squared distance. -/
def bestMatch (ts : List Track) (ids : List ℕ) (c : ℚ × ℚ) : Option (ℕ × ℚ) :=
  ids.foldl (bmStep ts c) none

/-- The body of the per-detection matching loop of `ObstacleTracker.update`
(lines 360-380): update the nearest unmatched track if it is within the gating
distance (100 px, squared 10000) and drop it from the unmatched pool,
otherwise register a new track. -/
def matchStep (s : TrackerState) (ids : List ℕ) (d : Detection) :
    TrackerState × List ℕ :=
  match bestMatch s.tracks ids (detCenter d) with
  | some (i, dist) =>
    if dist < 10000 then
      ({ s with tracks := updTrack s.tracks i (fun t => ⟨t.id, d, 0⟩) }, ids.erase i)
    else (register s d, ids)
  | none => (register s d, ids)

/-- The matching phase of `ObstacleTracker.update`: fold the per-detection
loop over the frame's detections, starting from the snapshot of live ids. -/
def matchPhase (s : TrackerState) (dets : List Detection) : TrackerState × List ℕ :=
  dets.foldl (fun acc d => matchStep acc.1 acc.2 d) (s, s.tracks.map (fun t => t.id))

/-- The deregistration test of `ObstacleTracker.update`: deregister track `i`
if its (already incremented) counter exceeds `max_disappeared`. -/
def disappearCheck (s : TrackerState) (i : ℕ) : TrackerState :=
  match findTrack s.tracks i with
  | some t => if s.maxDisappeared < t.disappeared then deregister s i else s
  | none => s

/-- The disappearance bookkeeping of `ObstacleTracker.update`: increment the
counter of track `i`, then deregister it if the counter now exceeds
`max_disappeared`. -/
def disappearStep (s : TrackerState) (i : ℕ) : TrackerState :=
  disappearCheck
    { s with tracks := updTrack s.tracks i (fun t => ⟨t.id, t.det, t.disappeared + 1⟩) } i

/-- `ObstacleTracker.update` (lines 330-389).  The Python method returns
`self.objects`; here the whole new state is returned and the returned mapping
is its `tracks` field. -/
def trackerUpdate (s : TrackerState) (dets : List Detection) : TrackerState :=
  if dets.isEmpty then
    (s.tracks.map (fun t => t.id)).foldl disappearStep s
  else if s.tracks.isEmpty then
    dets.foldl register s
  else
    let p := matchPhase s dets
    p.2.foldl disappearStep p.1

/-- Tracker well-formedness: every live id is below the id counter, and live
ids are pairwise distinct. -/
def TrackerInv (s : TrackerState) : Prop :=
  (∀ t ∈ s.tracks, t.id < s.nextObjectId) ∧ (s.tracks.map (fun t => t.id)).Nodup

theorem findTrack_nil (i : ℕ) : findTrack [] i = none := rfl

theorem findTrack_cons (t : Track) (ts : List Track) (i : ℕ) :
    findTrack (t :: ts) i = if t.id = i then some t else findTrack ts i := by
  by_cases h : t.id = i
  · simp [findTrack, List.find?_cons, h]
  · simp [findTrack, List.find?_cons, h]

theorem findTrack_append (ts us : List Track) (i : ℕ) :
    findTrack (ts ++ us) i =
      match findTrack ts i with
      | some t => some t
      | none => findTrack us i := by
  induction ts with
  | nil => simp [findTrack_nil]
  | cons t ts ih =>
    rw [List.cons_append, findTrack_cons, findTrack_cons]
    by_cases h : t.id = i <;> simp [h, ih]

theorem findTrack_isSome_iff (ts : List Track) (i : ℕ) :
    (findTrack ts i).isSome ↔ i ∈ ts.map (fun t => t.id) := by
  induction ts with
  | nil => simp [findTrack_nil]
  | cons t ts ih =>
    rw [findTrack_cons, List.map_cons]
    by_cases h : t.id = i
    · simp [h]
    · rw [if_neg h, List.mem_cons, ih]
      constructor
      · intro hs
        exact Or.inr hs
      · rintro (he | hm)
        · exact absurd he.symm h
        · exact hm

theorem findTrack_eq_some (ts : List Track) (i : ℕ) (t : Track)
    (h : findTrack ts i = some t) : t ∈ ts ∧ t.id = i := by
  induction ts with
  | nil => simp [findTrack_nil] at h
  | cons u ts ih =>
    rw [findTrack_cons] at h
    by_cases hu : u.id = i
    · rw [if_pos hu] at h
      injection h with h
      subst h
      exact ⟨List.mem_cons_self _ _, hu⟩
    · rw [if_neg hu] at h
      exact ⟨List.mem_cons_of_mem u (ih h).1, (ih h).2⟩

theorem mem_findTrack_of_nodup (ts : List Track) (t : Track)
    (hnd : (ts.map (fun t => t.id)).Nodup) (ht : t ∈ ts) :
    findTrack ts t.id = some t := by
  induction ts with
  | nil => simp at ht
  | cons u ts ih =>
    rw [List.map_cons, List.nodup_cons] at hnd
    rcases List.mem_cons.mp ht with h | h
    · subst h
      rw [findTrack_cons, if_pos rfl]
    · have hne : u.id ≠ t.id := by
        intro he
        exact hnd.1 (he ▸ List.mem_map_of_mem (fun t => t.id) h)
      rw [findTrack_cons, if_neg hne]
      exact ih hnd.2 h

theorem findTrack_updTrack (ts : List Track) (i j : ℕ) (f : Track → Track)
    (hf : ∀ t, (f t).id = t.id) :
    findTrack (updTrack ts i f) j =
      if j = i then (findTrack ts i).map f else findTrack ts j := by
  induction ts with
  | nil => by_cases h : j = i <;> simp [updTrack, findTrack_nil, h]
  | cons t ts ih =>
    have hu : updTrack (t :: ts) i f =
        (if t.id == i then f t else t) :: updTrack ts i f := rfl
    have hid : (if t.id == i then f t else t).id = t.id := by
      by_cases h : t.id = i <;> simp [h, hf]
    rw [hu, findTrack_cons, hid, ih]
    by_cases h1 : t.id = j
    · by_cases h2 : j = i
      · have h3 : t.id = i := h1.trans h2
        rw [if_pos h1, if_pos h2, findTrack_cons, if_pos h3]
        simp [h3]
      · have h3 : ¬ t.id = i := fun h => h2 (h1.symm.trans h)
        rw [if_pos h1, if_neg h2, findTrack_cons, if_pos h1]
        simp [h3]
    · by_cases h2 : j = i
      · have h3 : ¬ t.id = i := fun h => h1 (h.trans h2.symm)
        rw [if_neg h1, if_pos h2, if_pos h2, findTrack_cons, if_neg h3]
      · rw [if_neg h1, if_neg h2, if_neg h2, findTrack_cons, if_neg h1]

theorem findTrack_filter_ne (ts : List Track) (i j : ℕ) (h : j ≠ i) :
    findTrack (ts.filter (fun t => t.id != i)) j = findTrack ts j := by
  induction ts with
  | nil => simp [findTrack_nil]
  | cons t ts ih =>
    by_cases hti : t.id = i
    · rw [List.filter_cons, if_neg (by simp [hti]), ih, findTrack_cons,
        if_neg (fun he : t.id = j => h (he.symm.trans hti))]
    · rw [List.filter_cons, if_pos (by simp [hti]), findTrack_cons,
        findTrack_cons, ih]

theorem findTrack_filter_self (ts : List Track) (i : ℕ) :
    findTrack (ts.filter (fun t => t.id != i)) i = none := by
  induction ts with
  | nil => simp [findTrack_nil]
  | cons t ts ih =>
    by_cases hti : t.id = i
    · rw [List.filter_cons, if_neg (by simp [hti])]
      exact ih
    · rw [List.filter_cons, if_pos (by simp [hti]), findTrack_cons, if_neg hti]
      exact ih

theorem bmStep_eq_some (ts : List Track) (c : ℚ × ℚ) (acc : Option (ℕ × ℚ))
    (i j : ℕ) (d : ℚ) (h : bmStep ts c acc i = some (j, d)) :
    j = i ∨ acc = some (j, d) := by
  unfold bmStep at h
  rcases hf : findTrack ts i with _ | t
  · rw [hf] at h
    exact Or.inr h
  · rw [hf] at h
    rcases acc with _ | ⟨k, best⟩
    · simp only [Option.some.injEq, Prod.mk.injEq] at h
      exact Or.inl h.1.symm
    · simp only at h
      by_cases hlt : sqDist c (detCenter t.det) < best
      · rw [if_pos hlt] at h
        simp only [Option.some.injEq, Prod.mk.injEq] at h
        exact Or.inl h.1.symm
      · rw [if_neg hlt] at h
        exact Or.inr h

theorem bestMatch_mem (ts : List Track) (ids : List ℕ) (c : ℚ × ℚ) (i : ℕ) (d : ℚ)
    (h : bestMatch ts ids c = some (i, d)) : i ∈ ids := by
  suffices H : ∀ (l : List ℕ) (acc : Option (ℕ × ℚ)) (j : ℕ) (e : ℚ),
      l.foldl (bmStep ts c) acc = some (j, e) → j ∈ l ∨ acc = some (j, e) by
    rcases H ids none i d h with h' | h'
    · exact h'
    · simp at h'
  intro l
  induction l with
  | nil =>
    intro acc j e h'
    exact Or.inr h'
  | cons a l ih =>
    intro acc j e h'
    rw [List.foldl_cons] at h'
    rcases ih _ _ _ h' with hmem | hacc
    · exact Or.inl (List.mem_cons_of_mem a hmem)
    · rcases bmStep_eq_some ts c acc a j e hacc with he | hold
      · exact Or.inl (he ▸ List.mem_cons_self a l)
      · exact Or.inr hold

theorem updTrack_map_id (ts : List Track) (i : ℕ) (f : Track → Track)
    (hf : ∀ t, (f t).id = t.id) :
    (updTrack ts i f).map (fun t => t.id) = ts.map (fun t => t.id) := by
  induction ts with
  | nil => rfl
  | cons t ts ih =>
    have hu : updTrack (t :: ts) i f =
        (if t.id == i then f t else t) :: updTrack ts i f := rfl
    rw [hu, List.map_cons, List.map_cons, ih]
    by_cases h : t.id = i <;> simp [h, hf]

theorem updTrack_inv (s : TrackerState) (i : ℕ) (f : Track → Track)
    (hf : ∀ t, (f t).id = t.id) (h : TrackerInv s) :
    TrackerInv { s with tracks := updTrack s.tracks i f } := by
  obtain ⟨h1, h2⟩ := h
  constructor
  · intro t ht
    have hmem : t.id ∈ (updTrack s.tracks i f).map (fun t => t.id) :=
      List.mem_map_of_mem _ ht
    rw [updTrack_map_id _ _ _ hf] at hmem
    obtain ⟨u, hu, he⟩ := List.mem_map.mp hmem
    exact he ▸ h1 u hu
  · show ((updTrack s.tracks i f).map (fun t => t.id)).Nodup
    rw [updTrack_map_id _ _ _ hf]
    exact h2

theorem register_inv (s : TrackerState) (d : Detection) (h : TrackerInv s) :
    TrackerInv (register s d) := by
  obtain ⟨h1, h2⟩ := h
  constructor
  · intro t ht
    rcases List.mem_append.mp ht with hm | hm
    · exact Nat.lt_succ_of_lt (h1 t hm)
    · rw [List.mem_singleton] at hm
      subst hm
      exact Nat.lt_succ_self _
  · show ((s.tracks ++ [(⟨s.nextObjectId, d, 0⟩ : Track)]).map (fun t => t.id)).Nodup
    rw [List.map_append, List.nodup_append]
    refine ⟨h2, List.nodup_singleton _, ?_⟩
    intro x hx hmem
    obtain ⟨u, hu, he⟩ := List.mem_map.mp hx
    rw [List.map_singleton, List.mem_singleton] at hmem
    subst hmem
    have := h1 u hu
    rw [he] at this
    exact lt_irrefl _ this

theorem findTrack_append_singleton_ne (ts : List Track) (t : Track) (i : ℕ)
    (h : t.id ≠ i) : findTrack (ts ++ [t]) i = findTrack ts i := by
  rw [findTrack_append]
  cases hf : findTrack ts i
  · simp only
    rw [findTrack_cons, if_neg h, findTrack_nil]
  · rfl

theorem register_findTrack_lt (s : TrackerState) (d : Detection) (i : ℕ)
    (h : i < s.nextObjectId) :
    findTrack (register s d).tracks i = findTrack s.tracks i :=
  findTrack_append_singleton_ne _ _ _ (Nat.ne_of_gt h)

theorem foldl_register_nextId_mono (ds : List Detection) :
    ∀ s : TrackerState, s.nextObjectId ≤ (ds.foldl register s).nextObjectId := by
  induction ds with
  | nil => intro s; exact le_refl _
  | cons d ds ih =>
    intro s
    rw [List.foldl_cons]
    exact le_trans (Nat.le_succ _) (ih (register s d))

theorem foldl_register_max (ds : List Detection) :
    ∀ s : TrackerState, (ds.foldl register s).maxDisappeared = s.maxDisappeared := by
  induction ds with
  | nil => intro s; rfl
  | cons d ds ih => intro s; rw [List.foldl_cons]; exact ih (register s d)

theorem foldl_register_inv (ds : List Detection) :
    ∀ s : TrackerState, TrackerInv s → TrackerInv (ds.foldl register s) := by
  induction ds with
  | nil => intro s h; exact h
  | cons d ds ih =>
    intro s h
    rw [List.foldl_cons]
    exact ih (register s d) (register_inv s d h)

theorem foldl_register_findTrack_lt (ds : List Detection) :
    ∀ (s : TrackerState) (i : ℕ), i < s.nextObjectId →
      findTrack (ds.foldl register s).tracks i = findTrack s.tracks i := by
  induction ds with
  | nil => intro s i _; rfl
  | cons d ds ih =>
    intro s i h
    rw [List.foldl_cons, ih (register s d) i (Nat.lt_succ_of_lt h),
      register_findTrack_lt s d i h]

theorem disappearCheck_nextId (st : TrackerState) (i : ℕ) :
    (disappearCheck st i).nextObjectId = st.nextObjectId := by
  unfold disappearCheck
  split
  · split <;> rfl
  · rfl

theorem disappearCheck_max (st : TrackerState) (i : ℕ) :
    (disappearCheck st i).maxDisappeared = st.maxDisappeared := by
  unfold disappearCheck
  split
  · split <;> rfl
  · rfl

theorem disappearCheck_findTrack_ne (st : TrackerState) (i j : ℕ) (h : j ≠ i) :
    findTrack (disappearCheck st i).tracks j = findTrack st.tracks j := by
  unfold disappearCheck
  split
  · split
    · exact findTrack_filter_ne _ _ _ h
    · rfl
  · rfl

theorem disappearCheck_inv (st : TrackerState) (i : ℕ) (h : TrackerInv st) :
    TrackerInv (disappearCheck st i) := by
  unfold disappearCheck
  split
  · split
    · obtain ⟨h1, h2⟩ := h
      constructor
      · intro t ht
        exact h1 t (List.mem_of_mem_filter ht)
      · exact List.Nodup.sublist ((List.filter_sublist _).map _) h2
    · exact h
  · exact h

theorem disappearStep_nextId (st : TrackerState) (i : ℕ) :
    (disappearStep st i).nextObjectId = st.nextObjectId :=
  disappearCheck_nextId _ _

theorem disappearStep_max (st : TrackerState) (i : ℕ) :
    (disappearStep st i).maxDisappeared = st.maxDisappeared :=
  disappearCheck_max _ _

theorem disappearStep_findTrack_ne (st : TrackerState) (i j : ℕ) (h : j ≠ i) :
    findTrack (disappearStep st i).tracks j = findTrack st.tracks j := by
  unfold disappearStep
  rw [disappearCheck_findTrack_ne _ _ _ h]
  exact (findTrack_updTrack st.tracks i j
    (fun t => ⟨t.id, t.det, t.disappeared + 1⟩) (fun t => rfl)).trans (if_neg h)

theorem disappearStep_findTrack_self (st : TrackerState) (i : ℕ) :
    findTrack (disappearStep st i).tracks i =
      match findTrack st.tracks i with
      | some t =>
        if st.maxDisappeared < t.disappeared + 1 then none
        else some ⟨t.id, t.det, t.disappeared + 1⟩
      | none => none := by
  have hupd : findTrack (updTrack st.tracks i
      (fun t => ⟨t.id, t.det, t.disappeared + 1⟩)) i =
      (findTrack st.tracks i).map (fun t => ⟨t.id, t.det, t.disappeared + 1⟩) :=
    (findTrack_updTrack st.tracks i i
      (fun t => ⟨t.id, t.det, t.disappeared + 1⟩) (fun t => rfl)).trans (if_pos rfl)
  unfold disappearStep disappearCheck
  rcases hf : findTrack st.tracks i with _ | t
  · rw [hf, Option.map_none'] at hupd
    simp only [hupd]
  · rw [hf, Option.map_some'] at hupd
    simp only [hupd]
    by_cases hc : st.maxDisappeared < t.disappeared + 1
    · rw [if_pos hc, if_pos hc]
      exact findTrack_filter_self _ _
    · rw [if_neg hc, if_neg hc]
      exact hupd

theorem disappearStep_inv (st : TrackerState) (i : ℕ) (h : TrackerInv st) :
    TrackerInv (disappearStep st i) :=
  disappearCheck_inv _ _
    (updTrack_inv st i (fun t => ⟨t.id, t.det, t.disappeared + 1⟩) (fun _ => rfl) h)

theorem foldl_disappearStep (L : List ℕ) :
    ∀ st : TrackerState, L.Nodup →
      ((L.foldl disappearStep st).nextObjectId = st.nextObjectId ∧
       (L.foldl disappearStep st).maxDisappeared = st.maxDisappeared) ∧
      (∀ j, j ∉ L →
        findTrack (L.foldl disappearStep st).tracks j = findTrack st.tracks j) ∧
      (∀ i ∈ L, findTrack (L.foldl disappearStep st).tracks i =
        match findTrack st.tracks i with
        | some t =>
          if st.maxDisappeared < t.disappeared + 1 then none
          else some ⟨t.id, t.det, t.disappeared + 1⟩
        | none => none) ∧
      (TrackerInv st → TrackerInv (L.foldl disappearStep st)) := by
  induction L with
  | nil =>
    intro st _
    exact ⟨⟨rfl, rfl⟩, fun j _ => rfl,
      fun i hi => absurd hi (List.not_mem_nil i), fun h => h⟩
  | cons a L ih =>
    intro st hnd
    rw [List.nodup_cons] at hnd
    obtain ⟨ha, hndL⟩ := hnd
    have H := ih (disappearStep st a) hndL
    rw [List.foldl_cons]
    refine ⟨⟨?_, ?_⟩, ?_, ?_, ?_⟩
    · rw [H.1.1, disappearStep_nextId]
    · rw [H.1.2, disappearStep_max]
    · intro j hj
      have hj1 : j ∉ L := fun hm => hj (List.mem_cons_of_mem a hm)
      have hj2 : j ≠ a := fun he => hj (he ▸ List.mem_cons_self a L)
      rw [H.2.1 j hj1, disappearStep_findTrack_ne st a j hj2]
    · intro i hi
      rcases List.mem_cons.mp hi with he | hm
      · subst he
        rw [H.2.1 i ha, disappearStep_findTrack_self]
      · have hne : i ≠ a := fun he => ha (he ▸ hm)
        rw [H.2.2.1 i hm, disappearStep_findTrack_ne st a i hne, disappearStep_max]
    · intro h
      exact H.2.2.2 (disappearStep_inv st a h)

/-- Invariant carried through the matching fold of `ObstacleTracker.update`:
`s0` is the state at the start of the update and `ids0` the snapshot of its
live ids; the accumulator holds the current state and the still-unmatched
ids. -/
def MatchInv (s0 : TrackerState) (ids0 : List ℕ) (st : TrackerState × List ℕ) : Prop :=
  TrackerInv st.1 ∧
  st.1.maxDisappeared = s0.maxDisappeared ∧
  s0.nextObjectId ≤ st.1.nextObjectId ∧
  List.Sublist st.2 ids0 ∧
  (∀ i ∈ st.2, findTrack st.1.tracks i = findTrack s0.tracks i) ∧
  (∀ i ∈ ids0, i ∉ st.2 →
    ∃ t, findTrack st.1.tracks i = some t ∧ t.disappeared = 0) ∧
  (∀ i ∈ ids0, (findTrack st.1.tracks i).isSome = true) ∧
  (∀ i, i < s0.nextObjectId → findTrack s0.tracks i = none →
    findTrack st.1.tracks i = none)

theorem MatchInv_register (s0 : TrackerState) (st : TrackerState × List ℕ)
    (d : Detection) (h0 : TrackerInv s0)
    (h : MatchInv s0 (s0.tracks.map (fun t => t.id)) st) :
    MatchInv s0 (s0.tracks.map (fun t => t.id)) (register st.1 d, st.2) := by
  obtain ⟨hinv, hmax, hle, hsub, hpres, hmat, hsome, hdead⟩ := h
  have hlt0 : ∀ i ∈ s0.tracks.map (fun t => t.id), i < s0.nextObjectId := by
    intro i hi
    obtain ⟨u, hu, he⟩ := List.mem_map.mp hi
    exact he ▸ h0.1 u hu
  have htr : (register st.1 d).tracks =
      st.1.tracks ++ [(⟨st.1.nextObjectId, d, 0⟩ : Track)] := rfl
  have hne : ∀ i ∈ s0.tracks.map (fun t => t.id),
      (⟨st.1.nextObjectId, d, 0⟩ : Track).id ≠ i := by
    intro i hi
    exact Nat.ne_of_gt (lt_of_lt_of_le (hlt0 i hi) hle)
  refine ⟨register_inv _ _ hinv, hmax, le_trans hle (Nat.le_succ _), hsub, ?_, ?_, ?_, ?_⟩
  · intro i hi
    show findTrack (register st.1 d).tracks i = _
    rw [htr, findTrack_append_singleton_ne _ _ _ (hne i (hsub.subset hi))]
    exact hpres i hi
  · intro i hi hni
    obtain ⟨t, ht, hd0⟩ := hmat i hi hni
    refine ⟨t, ?_, hd0⟩
    show findTrack (register st.1 d).tracks i = some t
    rw [htr, findTrack_append_singleton_ne _ _ _ (hne i hi)]
    exact ht
  · intro i hi
    show (findTrack (register st.1 d).tracks i).isSome = true
    rw [htr, findTrack_append_singleton_ne _ _ _ (hne i hi)]
    exact hsome i hi
  · intro i hil hnone
    show findTrack (register st.1 d).tracks i = none
    rw [htr, findTrack_append_singleton_ne _ _ _
      (Nat.ne_of_gt (lt_of_lt_of_le hil hle))]
    exact hdead i hil hnone

theorem MatchInv_matched (s0 : TrackerState) (st : TrackerState × List ℕ)
    (d : Detection) (i : ℕ) (h0 : TrackerInv s0)
    (h : MatchInv s0 (s0.tracks.map (fun t => t.id)) st)
    (hi2 : i ∈ st.2) :
    MatchInv s0 (s0.tracks.map (fun t => t.id))
      ({ st.1 with tracks := updTrack st.1.tracks i (fun t => ⟨t.id, d, 0⟩) },
       st.2.erase i) := by
  obtain ⟨hinv, hmax, hle, hsub, hpres, hmat, hsome, hdead⟩ := h
  have hnd0 : (s0.tracks.map (fun t => t.id)).Nodup := h0.2
  have hnd2 : st.2.Nodup := List.Nodup.sublist hsub hnd0
  have hfu : ∀ j, findTrack (updTrack st.1.tracks i (fun t => ⟨t.id, d, 0⟩)) j =
      if j = i then (findTrack st.1.tracks i).map (fun t => ⟨t.id, d, 0⟩)
      else findTrack st.1.tracks j :=
    fun j => findTrack_updTrack st.1.tracks i j (fun t => ⟨t.id, d, 0⟩) (fun t => rfl)
  refine ⟨updTrack_inv _ _ _ (fun t => rfl) hinv, hmax, hle,
    List.Sublist.trans (List.erase_sublist i st.2) hsub, ?_, ?_, ?_, ?_⟩
  · intro j hj
    have hj' : j ≠ i ∧ j ∈ st.2 := (List.Nodup.mem_erase_iff hnd2).mp hj
    show findTrack (updTrack st.1.tracks i (fun t => ⟨t.id, d, 0⟩)) j = _
    rw [hfu j, if_neg hj'.1]
    exact hpres j hj'.2
  · intro j hj hnj
    by_cases hji : j = i
    · subst hji
      obtain ⟨t0, ht0⟩ := Option.isSome_iff_exists.mp (hsome j hj)
      refine ⟨⟨t0.id, d, 0⟩, ?_, rfl⟩
      show findTrack (updTrack st.1.tracks j (fun t => ⟨t.id, d, 0⟩)) j = _
      rw [hfu j, if_pos rfl, ht0, Option.map_some']
    · have hj2 : j ∉ st.2 := by
        intro hmem
        exact hnj ((List.Nodup.mem_erase_iff hnd2).mpr ⟨hji, hmem⟩)
      obtain ⟨t, ht, hd0⟩ := hmat j hj hj2
      refine ⟨t, ?_, hd0⟩
      show findTrack (updTrack st.1.tracks i (fun t => ⟨t.id, d, 0⟩)) j = some t
      rw [hfu j, if_neg hji]
      exact ht
  · intro j hj
    show (findTrack (updTrack st.1.tracks i (fun t => ⟨t.id, d, 0⟩)) j).isSome = true
    rw [hfu j]
    by_cases hji : j = i
    · rw [if_pos hji, Option.isSome_map']
      exact hji ▸ hsome j hj
    · rw [if_neg hji]
      exact hsome j hj
  · intro j hjl hnone
    have hji : j ≠ i := by
      intro he
      have hi0 : i ∈ s0.tracks.map (fun t => t.id) := hsub.subset hi2
      have := (findTrack_isSome_iff s0.tracks i).mpr hi0
      rw [← he, hnone] at this
      simp at this
    show findTrack (updTrack st.1.tracks i (fun t => ⟨t.id, d, 0⟩)) j = none
    rw [hfu j, if_neg hji]
    exact hdead j hjl hnone

theorem matchStep_inv (s0 : TrackerState) (st : TrackerState × List ℕ)
    (d : Detection) (h0 : TrackerInv s0)
    (h : MatchInv s0 (s0.tracks.map (fun t => t.id)) st) :
    MatchInv s0 (s0.tracks.map (fun t => t.id)) (matchStep st.1 st.2 d) := by
  unfold matchStep
  rcases hbm : bestMatch st.1.tracks st.2 (detCenter d) with _ | ⟨i, dist⟩
  · exact MatchInv_register s0 st d h0 h
  · dsimp only
    by_cases hdist : dist < 10000
    · rw [if_pos hdist]
      exact MatchInv_matched s0 st d i h0 h (bestMatch_mem _ _ _ _ _ hbm)
    · rw [if_neg hdist]
      exact MatchInv_register s0 st d h0 h

theorem matchPhase_inv (s0 : TrackerState) (dets : List Detection)
    (h0 : TrackerInv s0) :
    MatchInv s0 (s0.tracks.map (fun t => t.id)) (matchPhase s0 dets) := by
  suffices H : ∀ (l : List Detection) (st : TrackerState × List ℕ),
      MatchInv s0 (s0.tracks.map (fun t => t.id)) st →
      MatchInv s0 (s0.tracks.map (fun t => t.id))
        (l.foldl (fun acc d => matchStep acc.1 acc.2 d) st) by
    refine H dets (s0, s0.tracks.map (fun t => t.id)) ?_
    refine ⟨h0, rfl, le_refl _, List.Sublist.refl _, fun i _ => rfl,
      fun i hi hni => absurd hi hni,
      fun i hi => (findTrack_isSome_iff s0.tracks i).mpr hi,
      fun i _ hn => hn⟩
  intro l
  induction l with
  | nil => intro st h; exact h
  | cons d l ih =>
    intro st h
    rw [List.foldl_cons]
    exact ih _ (matchStep_inv s0 st d h0 h)

theorem trackerUpdate_nil (s : TrackerState) :
    trackerUpdate s [] = (s.tracks.map (fun t => t.id)).foldl disappearStep s := rfl

theorem trackerUpdate_empty_tracks (s : TrackerState) (dets : List Detection)
    (hd : dets ≠ []) (hs : s.tracks = []) :
    trackerUpdate s dets = dets.foldl register s := by
  have h1 : ¬ (dets.isEmpty = true) := by
    rw [List.isEmpty_iff]
    exact hd
  have h2 : s.tracks.isEmpty = true := by
    rw [List.isEmpty_iff]
    exact hs
  unfold trackerUpdate
  rw [if_neg h1, if_pos h2]

theorem trackerUpdate_nonempty (s : TrackerState) (dets : List Detection)
    (hd : dets ≠ []) (hs : s.tracks ≠ []) :
    trackerUpdate s dets =
      (matchPhase s dets).2.foldl disappearStep (matchPhase s dets).1 := by
  have h1 : ¬ (dets.isEmpty = true) := by
    rw [List.isEmpty_iff]
    exact hd
  have h2 : ¬ (s.tracks.isEmpty = true) := by
    rw [List.isEmpty_iff]
    exact hs
  unfold trackerUpdate
  rw [if_neg h1, if_neg h2]

theorem trackerUpdate_inv (s : TrackerState) (dets : List Detection)
    (h : TrackerInv s) :
    TrackerInv (trackerUpdate s dets) ∧
    s.nextObjectId ≤ (trackerUpdate s dets).nextObjectId ∧
    (trackerUpdate s dets).maxDisappeared = s.maxDisappeared := by
  by_cases hd : dets = []
  · subst hd
    rw [trackerUpdate_nil]
    have H := foldl_disappearStep (s.tracks.map (fun t => t.id)) s h.2
    exact ⟨H.2.2.2 h, le_of_eq H.1.1.symm, H.1.2⟩
  · by_cases hs : s.tracks = []
    · rw [trackerUpdate_empty_tracks s dets hd hs]
      exact ⟨foldl_register_inv dets s h, foldl_register_nextId_mono dets s,
        foldl_register_max dets s⟩
    · rw [trackerUpdate_nonempty s dets hd hs]
      have M := matchPhase_inv s dets h
      have hnd2 : (matchPhase s dets).2.Nodup := List.Nodup.sublist M.2.2.2.1 h.2
      have H := foldl_disappearStep (matchPhase s dets).2 (matchPhase s dets).1 hnd2
      exact ⟨H.2.2.2 M.1, le_trans M.2.2.1 (le_of_eq H.1.1.symm),
        H.1.2.trans M.2.1⟩

theorem trackerUpdate_dead (s : TrackerState) (dets : List Detection)
    (h : TrackerInv s) (i : ℕ) (hlt : i < s.nextObjectId)
    (hnone : findTrack s.tracks i = none) :
    findTrack (trackerUpdate s dets).tracks i = none := by
  have hni : i ∉ s.tracks.map (fun t => t.id) := by
    intro hm
    have := (findTrack_isSome_iff s.tracks i).mpr hm
    rw [hnone] at this
    simp at this
  by_cases hd : dets = []
  · subst hd
    rw [trackerUpdate_nil]
    have H := foldl_disappearStep (s.tracks.map (fun t => t.id)) s h.2
    rw [H.2.1 i hni]
    exact hnone
  · by_cases hs : s.tracks = []
    · rw [trackerUpdate_empty_tracks s dets hd hs,
        foldl_register_findTrack_lt dets s i hlt]
      exact hnone
    · rw [trackerUpdate_nonempty s dets hd hs]
      have M := matchPhase_inv s dets h
      have hnd2 : (matchPhase s dets).2.Nodup := List.Nodup.sublist M.2.2.2.1 h.2
      have hni2 : i ∉ (matchPhase s dets).2 := fun hm => hni (M.2.2.2.1.subset hm)
      have H := foldl_disappearStep (matchPhase s dets).2 (matchPhase s dets).1 hnd2
      rw [H.2.1 i hni2]
      exact M.2.2.2.2.2.2.2 i hlt hnone

theorem trackerUpdate_nil_track (s : TrackerState) (h : TrackerInv s) (t : Track)
    (ht : t ∈ s.tracks) :
    findTrack (trackerUpdate s []).tracks t.id =
      if s.maxDisappeared < t.disappeared + 1 then none
      else some ⟨t.id, t.det, t.disappeared + 1⟩ := by
  rw [trackerUpdate_nil]
  have H := foldl_disappearStep (s.tracks.map (fun t => t.id)) s h.2
  have hmem : t.id ∈ s.tracks.map (fun t => t.id) := List.mem_map_of_mem _ ht
  rw [H.2.2.1 t.id hmem, mem_findTrack_of_nodup s.tracks t h.2 ht]

theorem trackerUpdate_unmatched (s : TrackerState) (dets : List Detection)
    (h : TrackerInv s) (hd : dets ≠ []) (t : Track) (ht : t ∈ s.tracks)
    (hum : t.id ∈ (matchPhase s dets).2) :
    findTrack (trackerUpdate s dets).tracks t.id =
      if s.maxDisappeared < t.disappeared + 1 then none
      else some ⟨t.id, t.det, t.disappeared + 1⟩ := by
  have hs : s.tracks ≠ [] := by
    intro he
    rw [he] at ht
    exact absurd ht (List.not_mem_nil t)
  rw [trackerUpdate_nonempty s dets hd hs]
  have M := matchPhase_inv s dets h
  have hnd2 : (matchPhase s dets).2.Nodup := List.Nodup.sublist M.2.2.2.1 h.2
  have H := foldl_disappearStep (matchPhase s dets).2 (matchPhase s dets).1 hnd2
  rw [H.2.2.1 t.id hum, M.2.2.2.2.1 t.id hum,
    mem_findTrack_of_nodup s.tracks t h.2 ht, M.2.1]

theorem trackerUpdate_matched (s : TrackerState) (dets : List Detection)
    (h : TrackerInv s) (hd : dets ≠ []) (t : Track) (ht : t ∈ s.tracks)
    (hm : t.id ∉ (matchPhase s dets).2) :
    ∃ t', findTrack (trackerUpdate s dets).tracks t.id = some t' ∧
      t'.disappeared = 0 := by
  have hs : s.tracks ≠ [] := by
    intro he
    rw [he] at ht
    exact absurd ht (List.not_mem_nil t)
  rw [trackerUpdate_nonempty s dets hd hs]
  have M := matchPhase_inv s dets h
  have hnd2 : (matchPhase s dets).2.Nodup := List.Nodup.sublist M.2.2.2.1 h.2
  have H := foldl_disappearStep (matchPhase s dets).2 (matchPhase s dets).1 hnd2
  obtain ⟨t', ht', h0⟩ := M.2.2.2.2.2.1 t.id (List.mem_map_of_mem _ ht) hm
  rw [H.2.1 t.id hm]
  exact ⟨t', ht', h0⟩

theorem trackerUpdate_none_imp (s : TrackerState) (dets : List Detection)
    (h : TrackerInv s) (t : Track) (ht : t ∈ s.tracks)
    (hnone : findTrack (trackerUpdate s dets).tracks t.id = none) :
    s.maxDisappeared < t.disappeared + 1 := by
  by_cases hd : dets = []
  · subst hd
    have := trackerUpdate_nil_track s h t ht
    rw [hnone] at this
    by_cases hc : s.maxDisappeared < t.disappeared + 1
    · exact hc
    · rw [if_neg hc] at this
      exact absurd this.symm (Option.some_ne_none _)
  · by_cases hum : t.id ∈ (matchPhase s dets).2
    · have := trackerUpdate_unmatched s dets h hd t ht hum
      rw [hnone] at this
      by_cases hc : s.maxDisappeared < t.disappeared + 1
      · exact hc
      · rw [if_neg hc] at this
        exact absurd this.symm (Option.some_ne_none _)
    · obtain ⟨t', ht', _⟩ := trackerUpdate_matched s dets h hd t ht hum
      rw [hnone] at ht'
      exact absurd ht'.symm (Option.some_ne_none _)

/-- Repeated updates with an empty detection list (`update([])`). -/
def iterEmptyUpdates (s : TrackerState) : ℕ → TrackerState
  | 0 => s
  | k + 1 => trackerUpdate (iterEmptyUpdates s k) []

theorem iterEmptyUpdates_track (s : TrackerState) (h : TrackerInv s) (t : Track)
    (ht : findTrack s.tracks t.id = some t) (hd0 : t.disappeared = 0) :
    (∀ k, k ≤ s.maxDisappeared →
      findTrack (iterEmptyUpdates s k).tracks t.id = some ⟨t.id, t.det, k⟩) ∧
    findTrack (iterEmptyUpdates s (s.maxDisappeared + 1)).tracks t.id = none := by
  have main : ∀ k, k ≤ s.maxDisappeared →
      TrackerInv (iterEmptyUpdates s k) ∧
      (iterEmptyUpdates s k).maxDisappeared = s.maxDisappeared ∧
      findTrack (iterEmptyUpdates s k).tracks t.id = some ⟨t.id, t.det, k⟩ := by
    intro k
    induction k with
    | zero =>
      intro _
      refine ⟨h, rfl, ?_⟩
      show findTrack s.tracks t.id = some ⟨t.id, t.det, 0⟩
      rw [ht, ← hd0]
    | succ k ih =>
      intro hk
      obtain ⟨hinv, hmax, hfind⟩ := ih (Nat.le_of_succ_le hk)
      have htk : (⟨t.id, t.det, k⟩ : Track) ∈ (iterEmptyUpdates s k).tracks :=
        (findTrack_eq_some _ _ _ hfind).1
      have hstep := trackerUpdate_nil_track (iterEmptyUpdates s k) hinv
        ⟨t.id, t.det, k⟩ htk
      refine ⟨(trackerUpdate_inv _ [] hinv).1, ?_, ?_⟩
      · show (trackerUpdate (iterEmptyUpdates s k) []).maxDisappeared = _
        rw [(trackerUpdate_inv _ [] hinv).2.2, hmax]
      · show findTrack (trackerUpdate (iterEmptyUpdates s k) []).tracks t.id = _
        rw [hstep, hmax, if_neg (not_lt.mpr hk)]
  refine ⟨fun k hk => (main k hk).2.2, ?_⟩
  obtain ⟨hinv, hmax, hfind⟩ := main s.maxDisappeared (le_refl _)
  have htk : (⟨t.id, t.det, s.maxDisappeared⟩ : Track) ∈
      (iterEmptyUpdates s s.maxDisappeared).tracks :=
    (findTrack_eq_some _ _ _ hfind).1
  have hstep := trackerUpdate_nil_track (iterEmptyUpdates s s.maxDisappeared) hinv
    ⟨t.id, t.det, s.maxDisappeared⟩ htk
  show findTrack (trackerUpdate (iterEmptyUpdates s s.maxDisappeared) []).tracks t.id = _
  rw [hstep, hmax, if_pos (Nat.lt_succ_self _)]

/-- What claim C7 asserts of `ObstacleTracker`: id hygiene (well-formedness is
preserved, the id counter never decreases, and an id that is not live never
comes back, so deregistered ids are never reused), the per-update counter
discipline (an unmatched track's counter is incremented and the track is
deregistered exactly when the counter exceeds `max_disappeared`; a matched
track's counter is reset to 0), and the derived property that a fresh track
unmatched in `max_disappeared + 1` consecutive updates survives the first
`max_disappeared` of them and is deregistered by the last. -/
def TrackerUpdateSpec (s : TrackerState) (dets : List Detection) : Prop :=
  TrackerInv (trackerUpdate s dets) ∧
  s.nextObjectId ≤ (trackerUpdate s dets).nextObjectId ∧
  (∀ i, i < s.nextObjectId → findTrack s.tracks i = none →
    findTrack (trackerUpdate s dets).tracks i = none) ∧
  (∀ t ∈ s.tracks,
    ((dets = [] ∨ t.id ∈ (matchPhase s dets).2) →
      findTrack (trackerUpdate s dets).tracks t.id =
        if s.maxDisappeared < t.disappeared + 1 then none
        else some ⟨t.id, t.det, t.disappeared + 1⟩) ∧
    (dets ≠ [] → t.id ∉ (matchPhase s dets).2 →
      ∃ t', findTrack (trackerUpdate s dets).tracks t.id = some t' ∧
        t'.disappeared = 0) ∧
    (findTrack (trackerUpdate s dets).tracks t.id = none →
      s.maxDisappeared < t.disappeared + 1)) ∧
  (∀ t ∈ s.tracks, t.disappeared = 0 →
    (∀ k, k ≤ s.maxDisappeared →
      findTrack (iterEmptyUpdates s k).tracks t.id = some ⟨t.id, t.det, k⟩) ∧
    findTrack (iterEmptyUpdates s (s.maxDisappeared + 1)).tracks t.id = none)

/-- C7: every well-formed tracker state satisfies `TrackerUpdateSpec` on every
update: ids are strictly increasing and never reused, each unmatched track's
disappeared counter is incremented and the track is deregistered exactly when
the counter exceeds `max_disappeared` (i.e. after `max_disappeared + 1`
consecutive unmatched frames), and a matched track's counter resets to 0. -/
theorem tracker_spec (s : TrackerState) (dets : List Detection)
    (h : TrackerInv s) : TrackerUpdateSpec s dets := by
  refine ⟨(trackerUpdate_inv s dets h).1, (trackerUpdate_inv s dets h).2.1,
    fun i hlt hnone => trackerUpdate_dead s dets h i hlt hnone, ?_, ?_⟩
  · intro t ht
    refine ⟨?_, fun hd hum => trackerUpdate_matched s dets h hd t ht hum,
      fun hnone => trackerUpdate_none_imp s dets h t ht hnone⟩
    rintro (hd | hum)
    · subst hd
      exact trackerUpdate_nil_track s h t ht
    · by_cases hd : dets = []
      · subst hd
        exact trackerUpdate_nil_track s h t ht
      · exact trackerUpdate_unmatched s dets h hd t ht hum
  · intro t ht hd0
    exact iterEmptyUpdates_track s h t (mem_findTrack_of_nodup s.tracks t h.2 ht) hd0

/-- Witness for `tracker_spec`: a concrete well-formed one-track state. -/
theorem tracker_spec_witness :
    TrackerInv (register (trackerInit 5) ⟨"human", 9/10, 100, 100, 150, 200⟩) ∧
    TrackerUpdateSpec (register (trackerInit 5) ⟨"human", 9/10, 100, 100, 150, 200⟩) [] :=
  have h : TrackerInv (register (trackerInit 5) ⟨"human", 9/10, 100, 100, 150, 200⟩) :=
    register_inv _ _ ⟨fun t ht => absurd ht (List.not_mem_nil t), List.nodup_nil⟩
  ⟨h, tracker_spec _ [] h⟩

/-- C9 counterexample: the claim says a degenerate detection (x2 ≤ x1 or
y2 ≤ y1) is dropped before entering the Tracker and never creates a track.
In the code `process_frame` passes `detections` to `ObstacleTracker.update`
unfiltered, and a degenerate detection does create a track. -/
theorem degenerate_detection_creates_track :
    (100 : ℚ) ≤ 100 ∧ (90 : ℚ) ≤ 100 ∧
    (trackerUpdate (trackerInit 5) [⟨"human", 9/10, 100, 100, 100, 90⟩]).tracks =
      [⟨0, ⟨"human", 9/10, 100, 100, 100, 90⟩, 0⟩] := by
  refine ⟨le_refl _, by norm_num, ?_⟩
  rfl

/-- C9 amended: `process_frame` applies no degenerate-bbox filter; every
detection, degenerate or not, reaches `ObstacleTracker.update`, and on a
fresh tracker any single detection — in particular a degenerate one —
registers a new track with id 0 and the detection stored unchanged. -/
theorem unfiltered_tracker_input (m : ℕ) (d : Detection)
    (_hdeg : d.x2 ≤ d.x1 ∨ d.y2 ≤ d.y1) :
    (trackerUpdate (trackerInit m) [d]).tracks = [⟨0, d, 0⟩] := by
  rfl

/-- Witness for `unfiltered_tracker_input` at a concrete degenerate bbox. -/
theorem unfiltered_tracker_input_witness :
    ((100 : ℚ) ≤ 100 ∨ (90 : ℚ) ≤ 100) ∧
    (trackerUpdate (trackerInit 5) [⟨"vehicle", 8/10, 100, 100, 100, 90⟩]).tracks =
      [⟨0, ⟨"vehicle", 8/10, 100, 100, 100, 90⟩, 0⟩] :=
  ⟨Or.inl (le_refl _),
   unfiltered_tracker_input 5 ⟨"vehicle", 8/10, 100, 100, 100, 90⟩
     (Or.inl (le_refl _))⟩

/-! ### Multi-frame confirmation (`src/multi_frame_confirmation.py`) -/

/-- One entry of a track's detection history: the detection, the frame index
at which it was appended, and the wall-clock timestamp. -/
structure HistEntry where
  det : Detection
  frame : ℕ
  time : ℚ
deriving DecidableEq

/-- The per-track record kept in `MultiFrameConfirmation.obstacle_history`. -/
structure TrackHistory where
  detections : List HistEntry
  firstSeen : Option ℚ
  lastSeen : Option ℚ
  confirmed : Bool
  positions : List (ℚ × ℚ)
  isStatic : Bool
deriving DecidableEq

/-- The defaultdict initial value for a never-seen track. -/
def emptyHistory : TrackHistory := ⟨[], none, none, false, [], false⟩

/-- The mutable state of a `MultiFrameConfirmation` instance. -/
structure MFCState where
  minConsecutiveFrames : ℕ
  maxFrameGap : ℕ
  movementThreshold : ℚ
  history : List (ℕ × TrackHistory)
  confirmedObstacles : List (ℕ × Detection)
  frameCount : ℕ
deriving DecidableEq

/-- A fresh `MultiFrameConfirmation(min_consecutive_frames, max_frame_gap,
movement_threshold)`. -/
def mfcInit (minC maxGap : ℕ) (thr : ℚ) : MFCState := ⟨minC, maxGap, thr, [], [], 0⟩

/-- Dictionary lookup in an insertion-ordered association list. -/
def alookup {α : Type} (m : List (ℕ × α)) (i : ℕ) : Option α :=
  (m.find? (fun p => p.1 == i)).map (fun p => p.2)

/-- Dictionary assignment: replace in place if the key is present, else
append. -/
def aset {α : Type} (m : List (ℕ × α)) (i : ℕ) (v : α) : List (ℕ × α) :=
  if (m.find? (fun p => p.1 == i)).isSome
  then m.map (fun p => if p.1 == i then (i, v) else p)
  else m ++ [(i, v)]

/-- Append to a `deque(maxlen = n)`: oldest entries beyond capacity drop
off. -/
def boundedAppend {α : Type} (n : ℕ) (xs : List α) (x : α) : List α :=
  let ys := xs ++ [x]
  ys.drop (ys.length - n)

/-- `MultiFrameConfirmation._should_confirm` (lines 104-128): at least
`min_consecutive_frames` entries, and every gap between the frame indices of
the most recent `min_consecutive_frames` entries at most `max_frame_gap`.
(Python's `list[-k:]` with `k = 0` is the whole list, hence the special
case.) -/
def shouldConfirm (minC maxGap : ℕ) (dets : List HistEntry) : Bool :=
  if dets.length < minC then false
  else
    let frames := dets.map (fun e => e.frame)
    let recent := if minC = 0 then frames else frames.drop (frames.length - minC)
    (recent.zip recent.tail).all (fun p => decide (p.2 - p.1 - 1 ≤ maxGap))

/-- `MultiFrameConfirmation._is_static` (lines 130-152): all consecutive
displacements below `movement_threshold`.  The source compares the maximum
Euclidean displacement against the threshold; comparing each squared
displacement against the squared threshold is equivalent for a nonnegative
threshold (the configured value is 50). -/
def isStaticCheck (thr : ℚ) (ps : List (ℚ × ℚ)) : Bool :=
  (ps.zip ps.tail).all (fun p => decide (sqDist p.1 p.2 < thr * thr))

/-- One confirmed obstacle as emitted by `MultiFrameConfirmation.update`:
the detection plus object id, duration since first seen, static flag and
history length. -/
structure ConfirmedObstacle where
  objectId : ℕ
  det : Detection
  duration : ℚ
  isStatic : Bool
  frameCount : ℕ
deriving DecidableEq

/-- The per-track history refresh performed by `MultiFrameConfirmation.update`
for a tracked object, before the confirmation check: append the new history
entry (capacity `min_consecutive_frames + max_frame_gap`), update the
timestamps, record the bbox center (capacity 10) and refresh the static flag
once at least three positions are stored. -/
def stepHistory (cap : ℕ) (thr : ℚ) (frame : ℕ) (t : ℚ) (h : TrackHistory)
    (det : Detection) : TrackHistory :=
  let dets' := boundedAppend cap h.detections ⟨det, frame, t⟩
  let first' := match h.firstSeen with
    | none => some t
    | some x => some x
  let pos' := boundedAppend 10 h.positions (detCenter det)
  let static' := if 3 ≤ pos'.length then isStaticCheck thr pos' else h.isStatic
  ⟨dets', first', some t, h.confirmed, pos', static'⟩

/-- One iteration of the tracked-objects loop of
`MultiFrameConfirmation.update` (lines 61-97): refresh the track's history,
run the confirmation check and, if it passes, set the sticky confirmed flag,
record the first confirmation in `confirmed_obstacles`, and append the track
to the per-frame confirmed output. -/
def mfcStep (t : ℚ) (acc : MFCState × List ConfirmedObstacle)
    (entry : ℕ × Detection) : MFCState × List ConfirmedObstacle :=
  let s := acc.1
  let objId := entry.1
  let det := entry.2
  let h := (alookup s.history objId).getD emptyHistory
  let h' := stepHistory (s.minConsecutiveFrames + s.maxFrameGap)
    s.movementThreshold s.frameCount t h det
  let conf := shouldConfirm s.minConsecutiveFrames s.maxFrameGap h'.detections
  let h2 := if conf then { h' with confirmed := true } else h'
  let s' := { s with
    history := aset s.history objId h2,
    confirmedObstacles :=
      if conf && !h.confirmed then aset s.confirmedObstacles objId det
      else s.confirmedObstacles }
  let out' :=
    if conf then
      acc.2 ++ [⟨objId, det, t - (h'.firstSeen.getD t), h'.isStatic,
        h'.detections.length⟩]
    else acc.2
  (s', out')

/-- The staleness test of `MultiFrameConfirmation._cleanup_old_obstacles`
(timeout 10 seconds).  The Python truthiness test
`if history['last_seen'] and ...` means a stored `last_seen` equal to 0.0 is
falsy and never purged. -/
def staleAt (t : ℚ) (p : ℕ × TrackHistory) : Bool :=
  match p.2.lastSeen with
  | some x => x != 0 && decide (10 < t - x)
  | none => false

/-- `MultiFrameConfirmation._cleanup_old_obstacles` (lines 159-176): purge
stale tracks from the history and from `confirmed_obstacles`. -/
def cleanupOld (t : ℚ) (s : MFCState) : MFCState :=
  { s with
    history := s.history.filter (fun p => !(staleAt t p)),
    confirmedObstacles := s.confirmedObstacles.filter
      (fun p => !(((s.history.filter (staleAt t)).map (fun q => q.1)).contains p.1)) }

/-- `MultiFrameConfirmation.update` (lines 44-102); the wall-clock
`time.time()` value is passed in as `t`.  Returns the new state and the list
of confirmed obstacles. -/
def mfcUpdate (s : MFCState) (tracked : List (ℕ × Detection)) (t : ℚ) :
    MFCState × List ConfirmedObstacle :=
  let s0 := { s with frameCount := s.frameCount + 1 }
  let r := tracked.foldl (mfcStep t) (s0, [])
  (cleanupOld t r.1, r.2)

theorem alookup_nil {α : Type} (i : ℕ) : alookup ([] : List (ℕ × α)) i = none := rfl

theorem alookup_cons {α : Type} (p : ℕ × α) (m : List (ℕ × α)) (i : ℕ) :
    alookup (p :: m) i = if p.1 = i then some p.2 else alookup m i := by
  by_cases h : p.1 = i <;> simp [alookup, List.find?_cons, h]

theorem alookup_append_singleton {α : Type} (m : List (ℕ × α)) (i j : ℕ) (v : α) :
    alookup (m ++ [(i, v)]) j =
      match alookup m j with
      | some w => some w
      | none => if i = j then some v else none := by
  induction m with
  | nil => simp [alookup_cons, alookup_nil]
  | cons p m ih =>
    rw [List.cons_append, alookup_cons, alookup_cons]
    by_cases h : p.1 = j <;> simp [h, ih]

theorem alookup_isSome_iff {α : Type} (m : List (ℕ × α)) (i : ℕ) :
    (alookup m i).isSome = true ↔ i ∈ m.map (fun p => p.1) := by
  induction m with
  | nil => simp [alookup_nil]
  | cons p m ih =>
    rw [alookup_cons, List.map_cons]
    by_cases h : p.1 = i
    · simp [h]
    · rw [if_neg h, List.mem_cons, ih]
      constructor
      · intro hs
        exact Or.inr hs
      · rintro (he | hm)
        · exact absurd he.symm h
        · exact hm

theorem find?_isSome_eq_alookup_isSome {α : Type} (m : List (ℕ × α)) (i : ℕ) :
    (m.find? (fun p => p.1 == i)).isSome = (alookup m i).isSome := by
  unfold alookup
  rw [Option.isSome_map']

theorem alookup_replace {α : Type} (m : List (ℕ × α)) (i j : ℕ) (v : α) :
    alookup (m.map (fun p => if p.1 == i then (i, v) else p)) j =
      if j = i then (alookup m i).map (fun _ => v) else alookup m j := by
  induction m with
  | nil => by_cases h : j = i <;> simp [alookup_nil, h]
  | cons p m ih =>
    simp only [beq_iff_eq] at ih
    by_cases h1 : p.1 = i
    · by_cases h2 : j = i
      · subst h2
        simp [List.map_cons, alookup_cons, beq_iff_eq, h1, ih]
      · have h3 : p.1 ≠ j := fun he => h2 (he.symm.trans h1)
        have h4 : ¬ i = j := fun he => h2 he.symm
        simp [List.map_cons, alookup_cons, beq_iff_eq, h1, h2, h3, h4, ih]
    · by_cases h2 : j = i
      · subst h2
        simp [List.map_cons, alookup_cons, beq_iff_eq, h1, ih]
      · by_cases h3 : p.1 = j <;>
          simp [List.map_cons, alookup_cons, beq_iff_eq, h1, h2, h3, ih]

theorem alookup_aset_self {α : Type} (m : List (ℕ × α)) (i : ℕ) (v : α) :
    alookup (aset m i v) i = some v := by
  unfold aset
  by_cases h : (m.find? (fun p => p.1 == i)).isSome
  · rw [if_pos h, alookup_replace, if_pos rfl]
    rw [find?_isSome_eq_alookup_isSome] at h
    obtain ⟨w, hw⟩ := Option.isSome_iff_exists.mp h
    rw [hw, Option.map_some']
  · rw [if_neg h, alookup_append_singleton]
    rw [find?_isSome_eq_alookup_isSome] at h
    have : alookup m i = none := Option.not_isSome_iff_eq_none.mp (by simpa using h)
    rw [this]
    simp

theorem alookup_aset_ne {α : Type} (m : List (ℕ × α)) (i j : ℕ) (v : α)
    (h : j ≠ i) : alookup (aset m i v) j = alookup m j := by
  unfold aset
  by_cases hs : (m.find? (fun p => p.1 == i)).isSome
  · rw [if_pos hs, alookup_replace, if_neg h]
  · rw [if_neg hs, alookup_append_singleton]
    cases hm : alookup m j
    · rw [if_neg (fun he : i = j => h he.symm)]
    · rfl

theorem replace_keys {α : Type} (m : List (ℕ × α)) (i : ℕ) (v : α) :
    (m.map (fun p => if p.1 == i then (i, v) else p)).map (fun p => p.1) =
      m.map (fun p => p.1) := by
  induction m with
  | nil => rfl
  | cons p m ih =>
    rw [List.map_cons, List.map_cons, List.map_cons, ih]
    by_cases h : p.1 = i <;> simp [h]

theorem aset_keys_nodup {α : Type} (m : List (ℕ × α)) (i : ℕ) (v : α)
    (h : (m.map (fun p => p.1)).Nodup) :
    ((aset m i v).map (fun p => p.1)).Nodup := by
  unfold aset
  by_cases hs : (m.find? (fun p => p.1 == i)).isSome
  · rw [if_pos hs, replace_keys]
    exact h
  · rw [if_neg hs, List.map_append, List.nodup_append]
    refine ⟨h, List.nodup_singleton _, ?_⟩
    intro x hx hmem
    rw [List.map_singleton, List.mem_singleton] at hmem
    subst hmem
    rw [find?_isSome_eq_alookup_isSome] at hs
    have : (alookup m x).isSome = true := (alookup_isSome_iff m x).mpr hx
    exact hs (by simpa using this)

theorem alookup_filter_none {α : Type} (m : List (ℕ × α)) (q : ℕ × α → Bool)
    (i : ℕ) (h : alookup m i = none) : alookup (m.filter q) i = none := by
  induction m with
  | nil => rfl
  | cons p m ih =>
    rw [alookup_cons] at h
    by_cases hp : p.1 = i
    · rw [if_pos hp] at h
      exact absurd h (Option.some_ne_none _)
    · rw [if_neg hp] at h
      rw [List.filter_cons]
      by_cases hq : q p = true
      · rw [if_pos hq, alookup_cons, if_neg hp]
        exact ih h
      · rw [if_neg hq]
        exact ih h

theorem alookup_filter_of_nodup {α : Type} (m : List (ℕ × α)) (q : ℕ × α → Bool)
    (i : ℕ) (v : α) (hnd : (m.map (fun p => p.1)).Nodup)
    (h : alookup m i = some v) :
    alookup (m.filter q) i = if q (i, v) = true then some v else none := by
  induction m with
  | nil => simp [alookup_nil] at h
  | cons p m ih =>
    rw [List.map_cons, List.nodup_cons] at hnd
    rw [alookup_cons] at h
    by_cases hp : p.1 = i
    · rw [if_pos hp] at h
      injection h with h
      have hpe : p = (i, v) := by
        rw [← hp, ← h]
      have hnone : alookup m i = none := by
        rw [← Option.not_isSome_iff_eq_none]
        intro hs
        exact hnd.1 (hp ▸ (alookup_isSome_iff m i).mp hs)
      rw [List.filter_cons]
      by_cases hq : q p = true
      · rw [if_pos hq, alookup_cons, if_pos hp, h, if_pos (hpe ▸ hq)]
      · rw [if_neg hq, if_neg (fun hqe => hq (hpe ▸ hqe))]
        exact alookup_filter_none m q i hnone
    · rw [if_neg hp] at h
      rw [List.filter_cons]
      by_cases hq : q p = true
      · rw [if_pos hq, alookup_cons, if_neg hp]
        exact ih hnd.2 h
      · rw [if_neg hq]
        exact ih hnd.2 h

/-- The refreshed history for a tracked id, before the confirmation check
(`s` is the update's state with the frame counter already incremented). -/
def stepHistAt (s : MFCState) (t : ℚ) (i : ℕ) (det : Detection) : TrackHistory :=
  stepHistory (s.minConsecutiveFrames + s.maxFrameGap) s.movementThreshold
    s.frameCount t ((alookup s.history i).getD emptyHistory) det

/-- The confirmation flag computed for a tracked id by one loop iteration. -/
def confFlagAt (s : MFCState) (t : ℚ) (i : ℕ) (det : Detection) : Bool :=
  shouldConfirm s.minConsecutiveFrames s.maxFrameGap (stepHistAt s t i det).detections

/-- The per-frame confirmed-output entry for a tracked id. -/
def outEntryAt (s : MFCState) (t : ℚ) (i : ℕ) (det : Detection) : ConfirmedObstacle :=
  ⟨i, det, t - ((stepHistAt s t i det).firstSeen.getD t),
    (stepHistAt s t i det).isStatic, (stepHistAt s t i det).detections.length⟩

/-- The history record stored for a tracked id after the confirmation check. -/
def refreshedHistory (s : MFCState) (t : ℚ) (i : ℕ) (det : Detection) : TrackHistory :=
  if confFlagAt s t i det then { stepHistAt s t i det with confirmed := true }
  else stepHistAt s t i det

theorem mfcStep_eq (t : ℚ) (acc : MFCState × List ConfirmedObstacle)
    (e : ℕ × Detection) :
    mfcStep t acc e =
      ({ acc.1 with
          history := aset acc.1.history e.1 (refreshedHistory acc.1 t e.1 e.2),
          confirmedObstacles :=
            if confFlagAt acc.1 t e.1 e.2 &&
                !(((alookup acc.1.history e.1).getD emptyHistory).confirmed)
            then aset acc.1.confirmedObstacles e.1 e.2
            else acc.1.confirmedObstacles },
       if confFlagAt acc.1 t e.1 e.2 then acc.2 ++ [outEntryAt acc.1 t e.1 e.2]
       else acc.2) := rfl

theorem stepHistory_confirmed (cap : ℕ) (thr : ℚ) (frame : ℕ) (t : ℚ)
    (h : TrackHistory) (det : Detection) :
    (stepHistory cap thr frame t h det).confirmed = h.confirmed := rfl

theorem stepHistory_detections (cap : ℕ) (thr : ℚ) (frame : ℕ) (t : ℚ)
    (h : TrackHistory) (det : Detection) :
    (stepHistory cap thr frame t h det).detections =
      boundedAppend cap h.detections ⟨det, frame, t⟩ := rfl

theorem refreshedHistory_detections (s : MFCState) (t : ℚ) (i : ℕ) (det : Detection) :
    (refreshedHistory s t i det).detections = (stepHistAt s t i det).detections := by
  unfold refreshedHistory
  split <;> rfl

theorem refreshedHistory_lastSeen (s : MFCState) (t : ℚ) (i : ℕ) (det : Detection) :
    (refreshedHistory s t i det).lastSeen = some t := by
  unfold refreshedHistory
  split <;> rfl

theorem foldl_mfcStep_fields (l : List (ℕ × Detection)) (t : ℚ) :
    ∀ acc : MFCState × List ConfirmedObstacle,
      (l.foldl (mfcStep t) acc).1.minConsecutiveFrames = acc.1.minConsecutiveFrames ∧
      (l.foldl (mfcStep t) acc).1.maxFrameGap = acc.1.maxFrameGap ∧
      (l.foldl (mfcStep t) acc).1.movementThreshold = acc.1.movementThreshold ∧
      (l.foldl (mfcStep t) acc).1.frameCount = acc.1.frameCount := by
  induction l with
  | nil => intro acc; exact ⟨rfl, rfl, rfl, rfl⟩
  | cons e l ih =>
    intro acc
    rw [List.foldl_cons]
    exact ih (mfcStep t acc e)

theorem foldl_mfcStep_history_ne (l : List (ℕ × Detection)) (t : ℚ) :
    ∀ (acc : MFCState × List ConfirmedObstacle) (j : ℕ), j ∉ l.map (fun p => p.1) →
      alookup (l.foldl (mfcStep t) acc).1.history j = alookup acc.1.history j := by
  induction l with
  | nil => intro acc j _; rfl
  | cons e l ih =>
    intro acc j hj
    have hj1 : j ∉ l.map (fun p => p.1) := fun hm => hj (List.mem_cons_of_mem _ hm)
    have hj2 : j ≠ e.1 := fun he => hj (he ▸ List.mem_cons_self _ _)
    rw [List.foldl_cons, ih (mfcStep t acc e) j hj1, mfcStep_eq]
    exact alookup_aset_ne _ _ _ _ hj2

theorem foldl_mfcStep_confObs_ne (l : List (ℕ × Detection)) (t : ℚ) :
    ∀ (acc : MFCState × List ConfirmedObstacle) (j : ℕ), j ∉ l.map (fun p => p.1) →
      alookup (l.foldl (mfcStep t) acc).1.confirmedObstacles j =
        alookup acc.1.confirmedObstacles j := by
  induction l with
  | nil => intro acc j _; rfl
  | cons e l ih =>
    intro acc j hj
    have hj1 : j ∉ l.map (fun p => p.1) := fun hm => hj (List.mem_cons_of_mem _ hm)
    have hj2 : j ≠ e.1 := fun he => hj (he ▸ List.mem_cons_self _ _)
    rw [List.foldl_cons, ih (mfcStep t acc e) j hj1, mfcStep_eq]
    by_cases hc : (confFlagAt acc.1 t e.1 e.2 &&
        !(((alookup acc.1.history e.1).getD emptyHistory).confirmed)) = true
    · show alookup (if _ then _ else _) j = _
      rw [if_pos hc]
      exact alookup_aset_ne _ _ _ _ hj2
    · show alookup (if _ then _ else _) j = _
      rw [if_neg hc]

theorem foldl_mfcStep_out_mono (l : List (ℕ × Detection)) (t : ℚ) :
    ∀ (acc : MFCState × List ConfirmedObstacle) (c : ConfirmedObstacle),
      c ∈ acc.2 → c ∈ (l.foldl (mfcStep t) acc).2 := by
  induction l with
  | nil => intro acc c hc; exact hc
  | cons e l ih =>
    intro acc c hc
    rw [List.foldl_cons]
    refine ih (mfcStep t acc e) c ?_
    rw [mfcStep_eq]
    by_cases hf : confFlagAt acc.1 t e.1 e.2 = true
    · show c ∈ (if _ then _ else _)
      rw [if_pos hf]
      exact List.mem_append_left _ hc
    · show c ∈ (if _ then _ else _)
      rw [if_neg hf]
      exact hc

theorem foldl_mfcStep_out_mem (l : List (ℕ × Detection)) (t : ℚ) :
    ∀ (acc : MFCState × List ConfirmedObstacle) (c : ConfirmedObstacle),
      c ∈ (l.foldl (mfcStep t) acc).2 → c ∈ acc.2 ∨ c.objectId ∈ l.map (fun p => p.1) := by
  induction l with
  | nil => intro acc c hc; exact Or.inl hc
  | cons e l ih =>
    intro acc c hc
    rw [List.foldl_cons] at hc
    rcases ih (mfcStep t acc e) c hc with hm | hm
    · rw [mfcStep_eq] at hm
      by_cases hf : confFlagAt acc.1 t e.1 e.2 = true
      · rw [if_pos hf] at hm
        rcases List.mem_append.mp hm with h1 | h1
        · exact Or.inl h1
        · rw [List.mem_singleton] at h1
          subst h1
          exact Or.inr (List.mem_cons_self _ _)
      · rw [if_neg hf] at hm
        exact Or.inl hm
    · exact Or.inr (List.mem_cons_of_mem _ hm)

theorem foldl_mfcStep_history_nodup (l : List (ℕ × Detection)) (t : ℚ) :
    ∀ acc : MFCState × List ConfirmedObstacle,
      (acc.1.history.map (fun p => p.1)).Nodup →
      ((l.foldl (mfcStep t) acc).1.history.map (fun p => p.1)).Nodup := by
  induction l with
  | nil => intro acc h; exact h
  | cons e l ih =>
    intro acc h
    rw [List.foldl_cons]
    refine ih (mfcStep t acc e) ?_
    rw [mfcStep_eq]
    exact aset_keys_nodup _ _ _ h

theorem mfcStep_confirmed_persist (t : ℚ) (acc : MFCState × List ConfirmedObstacle)
    (e : ℕ × Detection) (j : ℕ) (h : TrackHistory)
    (hl : alookup acc.1.history j = some h) (hc : h.confirmed = true) :
    ∃ h', alookup (mfcStep t acc e).1.history j = some h' ∧ h'.confirmed = true := by
  rw [mfcStep_eq]
  by_cases hj : j = e.1
  · subst hj
    refine ⟨refreshedHistory acc.1 t e.1 e.2, alookup_aset_self _ _ _, ?_⟩
    unfold refreshedHistory
    by_cases hf : confFlagAt acc.1 t e.1 e.2 = true
    · rw [if_pos hf]
    · rw [if_neg hf]
      show (stepHistAt acc.1 t e.1 e.2).confirmed = true
      unfold stepHistAt
      rw [stepHistory_confirmed, hl]
      exact hc
  · exact ⟨h, by rw [alookup_aset_ne _ _ _ _ hj]; exact hl, hc⟩

theorem foldl_mfcStep_confirmed_persist (l : List (ℕ × Detection)) (t : ℚ) :
    ∀ (acc : MFCState × List ConfirmedObstacle) (j : ℕ) (h : TrackHistory),
      alookup acc.1.history j = some h → h.confirmed = true →
      ∃ h', alookup (l.foldl (mfcStep t) acc).1.history j = some h' ∧
        h'.confirmed = true := by
  induction l with
  | nil => intro acc j h hl hc; exact ⟨h, hl, hc⟩
  | cons e l ih =>
    intro acc j h hl hc
    rw [List.foldl_cons]
    obtain ⟨h1, hl1, hc1⟩ := mfcStep_confirmed_persist t acc e j h hl hc
    exact ih (mfcStep t acc e) j h1 hl1 hc1

theorem mfcStep_confObs_persist (t : ℚ) (acc : MFCState × List ConfirmedObstacle)
    (e : ℕ × Detection) (j : ℕ)
    (h : (alookup acc.1.confirmedObstacles j).isSome = true) :
    (alookup (mfcStep t acc e).1.confirmedObstacles j).isSome = true := by
  rw [mfcStep_eq]
  by_cases hc : (confFlagAt acc.1 t e.1 e.2 &&
      !(((alookup acc.1.history e.1).getD emptyHistory).confirmed)) = true
  · show (alookup (if _ then _ else _) j).isSome = true
    rw [if_pos hc]
    by_cases hj : j = e.1
    · subst hj
      rw [alookup_aset_self]
      rfl
    · rw [alookup_aset_ne _ _ _ _ hj]
      exact h
  · show (alookup (if _ then _ else _) j).isSome = true
    rw [if_neg hc]
    exact h

theorem foldl_mfcStep_confObs_persist (l : List (ℕ × Detection)) (t : ℚ) :
    ∀ (acc : MFCState × List ConfirmedObstacle) (j : ℕ),
      (alookup acc.1.confirmedObstacles j).isSome = true →
      (alookup (l.foldl (mfcStep t) acc).1.confirmedObstacles j).isSome = true := by
  induction l with
  | nil => intro acc j h; exact h
  | cons e l ih =>
    intro acc j h
    rw [List.foldl_cons]
    exact ih (mfcStep t acc e) j (mfcStep_confObs_persist t acc e j h)

theorem alookup_filter_key {α : Type} (m : List (ℕ × α)) (q : ℕ → Bool) (j : ℕ) :
    alookup (m.filter (fun p => q p.1)) j =
      if q j = true then alookup m j else none := by
  induction m with
  | nil => by_cases h : q j = true <;> simp [alookup_nil, h]
  | cons p m ih =>
    rw [List.filter_cons]
    by_cases hp : p.1 = j
    · subst hp
      by_cases hq : q p.1 = true
      · rw [if_pos hq, alookup_cons, if_pos rfl, if_pos hq, alookup_cons, if_pos rfl]
      · rw [if_neg hq, ih, if_neg hq, if_neg hq]
    · by_cases hq : q p.1 = true
      · rw [if_pos hq, alookup_cons, if_neg hp, ih, alookup_cons, if_neg hp]
      · rw [if_neg hq, ih, alookup_cons, if_neg hp]

theorem nodup_keys_eq {α : Type} (m : List (ℕ × α))
    (hnd : (m.map (fun p => p.1)).Nodup) (p q : ℕ × α)
    (hp : p ∈ m) (hq : q ∈ m) (he : p.1 = q.1) : p = q := by
  induction m with
  | nil => simp at hp
  | cons r m ih =>
    rw [List.map_cons, List.nodup_cons] at hnd
    rcases List.mem_cons.mp hp with hp1 | hp1 <;> rcases List.mem_cons.mp hq with hq1 | hq1
    · rw [hp1, hq1]
    · subst hp1
      exact absurd (he ▸ List.mem_map_of_mem (fun p => p.1) hq1) hnd.1
    · subst hq1
      exact absurd (he ▸ List.mem_map_of_mem (fun p => p.1) hp1) hnd.1
    · exact ih hnd.2 hp1 hq1

theorem staleAt_fresh (t : ℚ) (i : ℕ) (h : TrackHistory)
    (hls : h.lastSeen = some t) : staleAt t (i, h) = false := by
  unfold staleAt
  rw [hls]
  have hlt : ¬ (10 < t - t) := by
    rw [sub_self]
    norm_num
  simp [hlt]

theorem cleanupOld_keep (t : ℚ) (s' : MFCState) (i : ℕ) (h : TrackHistory)
    (hnd : (s'.history.map (fun p => p.1)).Nodup)
    (hl : alookup s'.history i = some h) (hstale : staleAt t (i, h) = false) :
    alookup (cleanupOld t s').history i = some h := by
  show alookup (s'.history.filter (fun p => !(staleAt t p))) i = some h
  rw [alookup_filter_of_nodup s'.history _ i h hnd hl, hstale]
  simp

theorem cleanupOld_confObs_keep (t : ℚ) (s' : MFCState) (j : ℕ)
    (hndh : (s'.history.map (fun p => p.1)).Nodup)
    (hsurv : (alookup (cleanupOld t s').history j).isSome = true)
    (hco : (alookup s'.confirmedObstacles j).isSome = true) :
    (alookup (cleanupOld t s').confirmedObstacles j).isSome = true := by
  have hnotrem : (((s'.history.filter (staleAt t)).map (fun q => q.1)).contains j)
      = false := by
    by_contra hcon
    rw [Bool.not_eq_false] at hcon
    have hjmem : j ∈ (s'.history.filter (staleAt t)).map (fun q => q.1) := by
      rw [← List.elem_iff]
      exact hcon
    obtain ⟨p, hp, hpe⟩ := List.mem_map.mp hjmem
    have hpm := List.mem_filter.mp hp
    have hsurv2 : j ∈ ((s'.history.filter (fun p => !(staleAt t p))).map
        (fun p => p.1)) := by
      rw [← alookup_isSome_iff]
      exact hsurv
    obtain ⟨q, hq, hqe⟩ := List.mem_map.mp hsurv2
    have hqm := List.mem_filter.mp hq
    have hpq : p = q := nodup_keys_eq s'.history hndh p q hpm.1 hqm.1
      (hpe.trans hqe.symm)
    rw [hpq] at hpm
    rw [hpm.2] at hqm
    simp at hqm
  show (alookup (s'.confirmedObstacles.filter
      (fun p => !(((s'.history.filter (staleAt t)).map (fun q => q.1)).contains p.1)))
      j).isSome = true
  rw [alookup_filter_key s'.confirmedObstacles
    (fun k => !(((s'.history.filter (staleAt t)).map (fun q => q.1)).contains k)) j,
    hnotrem]
  simpa using hco

theorem confFlagAt_congr (s1 s2 : MFCState) (t : ℚ) (i : ℕ) (d : Detection)
    (h1 : s1.minConsecutiveFrames = s2.minConsecutiveFrames)
    (h2 : s1.maxFrameGap = s2.maxFrameGap)
    (h3 : s1.movementThreshold = s2.movementThreshold)
    (h4 : s1.frameCount = s2.frameCount)
    (h5 : alookup s1.history i = alookup s2.history i) :
    confFlagAt s1 t i d = confFlagAt s2 t i d ∧
    refreshedHistory s1 t i d = refreshedHistory s2 t i d := by
  have hs : stepHistAt s1 t i d = stepHistAt s2 t i d := by
    unfold stepHistAt
    rw [h1, h2, h3, h4, h5]
  have hf : confFlagAt s1 t i d = confFlagAt s2 t i d := by
    unfold confFlagAt
    rw [h1, h2, hs]
  refine ⟨hf, ?_⟩
  unfold refreshedHistory
  rw [hf, hs]

theorem mem_nodup_keys_decomp (tracked : List (ℕ × Detection)) (i : ℕ)
    (d : Detection) (hmem : (i, d) ∈ tracked)
    (hnd : (tracked.map (fun p => p.1)).Nodup) :
    ∃ l1 l2, tracked = l1 ++ (i, d) :: l2 ∧
      i ∉ l1.map (fun p => p.1) ∧ i ∉ l2.map (fun p => p.1) := by
  obtain ⟨l1, l2, he⟩ := List.append_of_mem hmem
  subst he
  rw [List.map_append, List.map_cons, List.nodup_append] at hnd
  refine ⟨l1, l2, rfl, ?_, ?_⟩
  · intro hmem1
    exact hnd.2.2 hmem1 (List.mem_cons_self _ _)
  · have := hnd.2.1
    rw [List.nodup_cons] at this
    exact this.1

theorem foldl_mfc_at (s0 : MFCState) (tracked : List (ℕ × Detection)) (t : ℚ)
    (hnd : (tracked.map (fun p => p.1)).Nodup) (i : ℕ) (d : Detection)
    (hmem : (i, d) ∈ tracked) :
    alookup (tracked.foldl (mfcStep t) (s0, [])).1.history i =
      some (refreshedHistory s0 t i d) ∧
    ((∃ c ∈ (tracked.foldl (mfcStep t) (s0, [])).2, c.objectId = i) ↔
      confFlagAt s0 t i d = true) := by
  obtain ⟨l1, l2, he, hi1, hi2⟩ := mem_nodup_keys_decomp tracked i d hmem hnd
  subst he
  rw [List.foldl_append, List.foldl_cons]
  have hf := foldl_mfcStep_fields l1 t (s0, [])
  have hh := foldl_mfcStep_history_ne l1 t (s0, []) i hi1
  have hcong := confFlagAt_congr (l1.foldl (mfcStep t) (s0, [])).1 s0 t i d
    hf.1 hf.2.1 hf.2.2.1 hf.2.2.2 hh
  constructor
  · have hstep : alookup
        (mfcStep t (l1.foldl (mfcStep t) (s0, [])) (i, d)).1.history i =
        some (refreshedHistory (l1.foldl (mfcStep t) (s0, [])).1 t i d) := by
      rw [mfcStep_eq]
      exact alookup_aset_self _ _ _
    rw [foldl_mfcStep_history_ne l2 t _ i hi2, hstep, hcong.2]
  · constructor
    · rintro ⟨c, hc, hci⟩
      rcases foldl_mfcStep_out_mem l2 t _ c hc with hm | hm
      · by_cases hflag : confFlagAt (l1.foldl (mfcStep t) (s0, [])).1 t i d = true
        · rw [← hcong.1]
          exact hflag
        · rw [mfcStep_eq] at hm
          rw [if_neg hflag] at hm
          rcases foldl_mfcStep_out_mem l1 t (s0, []) c hm with h0 | h0
          · exact absurd h0 (List.not_mem_nil c)
          · rw [hci] at h0
            exact absurd h0 hi1
      · rw [hci] at hm
        exact absurd hm hi2
    · intro hflag
      refine ⟨outEntryAt (l1.foldl (mfcStep t) (s0, [])).1 t i d, ?_, rfl⟩
      refine foldl_mfcStep_out_mono l2 t _ _ ?_
      rw [mfcStep_eq]
      show _ ∈ (if _ then _ else _)
      rw [if_pos (hcong.1.trans hflag)]
      exact List.mem_append_right _ (List.mem_singleton.mpr rfl)

/-- The most recent `n` elements of a list, as the specification words it. -/
def lastN {α : Type} (n : ℕ) (l : List α) : List α := l.drop (l.length - n)

/-- The gap check as the specification words it: every gap between adjacent
frame indices (difference minus one) is at most `g`. -/
def gapsOk (g : ℕ) : List ℕ → Bool
  | [] => true
  | [_] => true
  | a :: b :: rest => decide (b - a - 1 ≤ g) && gapsOk g (b :: rest)

theorem zip_all_eq_gapsOk (g : ℕ) (l : List ℕ) :
    (l.zip l.tail).all (fun p => decide (p.2 - p.1 - 1 ≤ g)) = gapsOk g l := by
  induction l with
  | nil => rfl
  | cons a l ih =>
    cases l with
    | nil => rfl
    | cons b rest =>
      show (((a, b) :: ((b :: rest).zip rest)).all
        (fun p => decide (p.2 - p.1 - 1 ≤ g))) = _
      rw [List.all_cons]
      show (decide (b - a - 1 ≤ g) &&
        ((b :: rest).zip (b :: rest).tail).all (fun p => decide (p.2 - p.1 - 1 ≤ g))) = _
      rw [ih]
      rfl

/-- C3's confirmation criterion, as the specification words it. -/
def SpecConfirm (minC maxGap : ℕ) (dets : List HistEntry) : Prop :=
  minC ≤ dets.length ∧
  gapsOk maxGap (lastN minC (dets.map (fun e => e.frame))) = true

theorem shouldConfirm_iff (minC maxGap : ℕ) (h1 : 1 ≤ minC) (dets : List HistEntry) :
    shouldConfirm minC maxGap dets = true ↔ SpecConfirm minC maxGap dets := by
  have hmc : ¬ (minC = 0) := by omega
  have key : shouldConfirm minC maxGap dets =
      (if dets.length < minC then false
       else gapsOk maxGap (lastN minC (dets.map (fun e => e.frame)))) := by
    simp only [shouldConfirm]
    by_cases hlen : dets.length < minC
    · rw [if_pos hlen, if_pos hlen]
    · rw [if_neg hlen, if_neg hlen, if_neg hmc, zip_all_eq_gapsOk]
      rfl
  rw [key]
  unfold SpecConfirm
  by_cases hlen : dets.length < minC
  · rw [if_pos hlen]
    constructor
    · intro hc
      exact absurd hc (by simp)
    · intro hc
      exact absurd hc.1 (not_le.mpr hlen)
  · rw [if_neg hlen]
    constructor
    · intro hg
      exact ⟨not_lt.mp hlen, hg⟩
    · intro hc
      exact hc.2

theorem gapsOk_range' (g : ℕ) : ∀ (n s : ℕ), gapsOk g (List.range' s n) = true := by
  intro n
  induction n with
  | zero => intro s; rfl
  | succ n ih =>
    intro s
    cases n with
    | zero => rfl
    | succ m =>
      show gapsOk g (s :: (s + 1) :: List.range' (s + 2) m) = true
      rw [gapsOk]
      have hg : (s + 1) - s - 1 ≤ g := by omega
      rw [decide_eq_true hg, Bool.true_and]
      exact ih (s + 1)

theorem boundedAppend_of_le {α : Type} (n : ℕ) (xs : List α) (x : α)
    (h : xs.length + 1 ≤ n) : boundedAppend n xs x = xs ++ [x] := by
  show List.drop ((xs ++ [x]).length - n) (xs ++ [x]) = xs ++ [x]
  have hz : (xs ++ [x]).length - n = 0 := by
    rw [List.length_append, List.length_singleton]
    omega
  rw [hz, List.drop_zero]

/-- The detection-history entries accumulated by a track fed the same
detection on every one of the first `k` frames. -/
def runDetections (d : Detection) (t : ℚ) (k : ℕ) : List HistEntry :=
  (List.range' 1 k).map (fun j => ⟨d, j, t⟩)

/-- The confirmation state after `k` updates each tracking exactly the object
`(i, d)`, starting from a fresh `MultiFrameConfirmation`. -/
def mfcRun (minC maxGap : ℕ) (thr : ℚ) (i : ℕ) (d : Detection) (t : ℚ) :
    ℕ → MFCState
  | 0 => mfcInit minC maxGap thr
  | k + 1 => (mfcUpdate (mfcRun minC maxGap thr i d t k) [(i, d)] t).1

/-- The confirmed output of update number `k + 1` in the single-track run. -/
def mfcRunOut (minC maxGap : ℕ) (thr : ℚ) (i : ℕ) (d : Detection) (t : ℚ)
    (k : ℕ) : List ConfirmedObstacle :=
  (mfcUpdate (mfcRun minC maxGap thr i d t k) [(i, d)] t).2

theorem cleanupOld_history_nodup (t : ℚ) (s : MFCState)
    (h : (s.history.map (fun p => p.1)).Nodup) :
    ((cleanupOld t s).history.map (fun p => p.1)).Nodup :=
  List.Nodup.sublist ((List.filter_sublist _).map _) h

theorem mfcUpdate_fields (s : MFCState) (tracked : List (ℕ × Detection)) (t : ℚ) :
    (mfcUpdate s tracked t).1.minConsecutiveFrames = s.minConsecutiveFrames ∧
    (mfcUpdate s tracked t).1.maxFrameGap = s.maxFrameGap ∧
    (mfcUpdate s tracked t).1.movementThreshold = s.movementThreshold ∧
    (mfcUpdate s tracked t).1.frameCount = s.frameCount + 1 := by
  have hf := foldl_mfcStep_fields tracked t
    ({ s with frameCount := s.frameCount + 1 }, [])
  exact ⟨hf.1, hf.2.1, hf.2.2.1, hf.2.2.2⟩

theorem mfcUpdate_history_nodup (s : MFCState) (tracked : List (ℕ × Detection))
    (t : ℚ) (h : (s.history.map (fun p => p.1)).Nodup) :
    ((mfcUpdate s tracked t).1.history.map (fun p => p.1)).Nodup :=
  cleanupOld_history_nodup _ _ (foldl_mfcStep_history_nodup tracked t _ h)

theorem mfcUpdate_history_at (s : MFCState) (tracked : List (ℕ × Detection))
    (t : ℚ) (hndk : (s.history.map (fun p => p.1)).Nodup)
    (hnd : (tracked.map (fun p => p.1)).Nodup) (i : ℕ) (d : Detection)
    (hmem : (i, d) ∈ tracked) :
    alookup (mfcUpdate s tracked t).1.history i =
      some (refreshedHistory { s with frameCount := s.frameCount + 1 } t i d) := by
  have key := foldl_mfc_at { s with frameCount := s.frameCount + 1 } tracked t hnd i d hmem
  refine cleanupOld_keep t _ i _ ?_ key.1 ?_
  · exact foldl_mfcStep_history_nodup tracked t _ hndk
  · exact staleAt_fresh t i _ (refreshedHistory_lastSeen _ _ _ _)

theorem mfcUpdate_out_iff (s : MFCState) (tracked : List (ℕ × Detection))
    (t : ℚ) (hnd : (tracked.map (fun p => p.1)).Nodup) (i : ℕ) (d : Detection)
    (hmem : (i, d) ∈ tracked) :
    (∃ c ∈ (mfcUpdate s tracked t).2, c.objectId = i) ↔
      confFlagAt { s with frameCount := s.frameCount + 1 } t i d = true :=
  (foldl_mfc_at { s with frameCount := s.frameCount + 1 } tracked t hnd i d hmem).2

theorem getD_detections (o : Option TrackHistory) :
    (o.getD emptyHistory).detections = (o.map (fun h => h.detections)).getD [] := by
  cases o <;> rfl

theorem runDetections_length (d : Detection) (t : ℚ) (k : ℕ) :
    (runDetections d t k).length = k := by
  unfold runDetections
  rw [List.length_map, List.length_range']

theorem range'_one_concat : ∀ k : ℕ, List.range' 1 (k + 1) = List.range' 1 k ++ [k + 1] := by
  suffices H : ∀ (n s : ℕ), List.range' s (n + 1) = List.range' s n ++ [s + n] by
    intro k
    rw [H k 1, Nat.add_comm 1 k]
  intro n
  induction n with
  | zero => intro s; simp
  | succ n ih =>
    intro s
    show s :: List.range' (s + 1) (n + 1) = (s :: List.range' (s + 1) n) ++ [s + (n + 1)]
    rw [ih (s + 1), List.cons_append]
    have : s + 1 + n = s + (n + 1) := by omega
    rw [this]

theorem runDetections_succ (d : Detection) (t : ℚ) (k : ℕ) :
    runDetections d t (k + 1) = runDetections d t k ++ [⟨d, k + 1, t⟩] := by
  unfold runDetections
  rw [range'_one_concat, List.map_append, List.map_singleton]

theorem runDetections_frames (d : Detection) (t : ℚ) (k : ℕ) :
    (runDetections d t k).map (fun e => e.frame) = List.range' 1 k := by
  unfold runDetections
  rw [List.map_map,
    show ((fun e : HistEntry => e.frame) ∘ fun j : ℕ => (⟨d, j, t⟩ : HistEntry)) = id
      from rfl,
    List.map_id]

theorem shouldConfirm_runDetections (minC maxGap : ℕ) (h1 : 1 ≤ minC)
    (d : Detection) (t : ℚ) :
    shouldConfirm minC maxGap (runDetections d t minC) = true := by
  rw [shouldConfirm_iff minC maxGap h1]
  constructor
  · rw [runDetections_length]
  · unfold lastN
    rw [runDetections_frames, List.length_range', Nat.sub_self, List.drop_zero]
    exact gapsOk_range' maxGap minC 1

theorem shouldConfirm_short (minC maxGap k : ℕ) (h : k < minC)
    (d : Detection) (t : ℚ) :
    shouldConfirm minC maxGap (runDetections d t k) = false := by
  have hlen : (runDetections d t k).length < minC := by
    rw [runDetections_length]
    exact h
  simp only [shouldConfirm]
  rw [if_pos hlen]

theorem mfcRun_invariant (minC maxGap : ℕ) (thr : ℚ) (i : ℕ) (d : Detection)
    (t : ℚ) :
    ∀ k, k ≤ minC + maxGap →
      ((mfcRun minC maxGap thr i d t k).minConsecutiveFrames = minC ∧
       (mfcRun minC maxGap thr i d t k).maxFrameGap = maxGap ∧
       (mfcRun minC maxGap thr i d t k).frameCount = k) ∧
      ((mfcRun minC maxGap thr i d t k).history.map (fun p => p.1)).Nodup ∧
      (alookup (mfcRun minC maxGap thr i d t k).history i).map
        (fun h => h.detections) =
        if k = 0 then none else some (runDetections d t k) := by
  intro k
  induction k with
  | zero =>
    intro _
    exact ⟨⟨rfl, rfl, rfl⟩, List.nodup_nil, rfl⟩
  | succ k ih =>
    intro hk
    obtain ⟨⟨hm, hg, hf⟩, hnd, hproj⟩ := ih (by omega)
    have hnds : (([(i, d)] : List (ℕ × Detection)).map (fun p => p.1)).Nodup := by
      simp
    have hmem : (i, d) ∈ ([(i, d)] : List (ℕ × Detection)) :=
      List.mem_singleton.mpr rfl
    have hlook := mfcUpdate_history_at (mfcRun minC maxGap thr i d t k) [(i, d)]
      t hnd hnds i d hmem
    have hfields := mfcUpdate_fields (mfcRun minC maxGap thr i d t k) [(i, d)] t
    have hstep_eq : mfcRun minC maxGap thr i d t (k + 1) =
        (mfcUpdate (mfcRun minC maxGap thr i d t k) [(i, d)] t).1 := rfl
    rw [hstep_eq]
    refine ⟨⟨?_, ?_, ?_⟩, ?_, ?_⟩
    · rw [hfields.1, hm]
    · rw [hfields.2.1, hg]
    · rw [hfields.2.2.2, hf]
    · exact mfcUpdate_history_nodup _ _ _ hnd
    · rw [hlook, Option.map_some', refreshedHistory_detections]
      show some (boundedAppend
          ((mfcRun minC maxGap thr i d t k).minConsecutiveFrames +
            (mfcRun minC maxGap thr i d t k).maxFrameGap)
          ((alookup (mfcRun minC maxGap thr i d t k).history i).getD
            emptyHistory).detections
          ⟨d, (mfcRun minC maxGap thr i d t k).frameCount + 1, t⟩) =
        if k + 1 = 0 then none else some (runDetections d t (k + 1))
      rw [hm, hg, hf, getD_detections, hproj, if_neg (Nat.succ_ne_zero k)]
      by_cases hk0 : k = 0
      · subst hk0
        rw [if_pos rfl]
        rw [show ((none : Option (List HistEntry)).getD []) = [] from rfl]
        rw [boundedAppend_of_le _ _ _ (by simp; omega)]
        rfl
      · rw [if_neg hk0, Option.getD_some,
          boundedAppend_of_le _ _ _ (by rw [runDetections_length]; omega),
          ← runDetections_succ]

theorem mfcRun_out (minC maxGap : ℕ) (thr : ℚ) (i : ℕ) (d : Detection) (t : ℚ)
    (h1 : 1 ≤ minC) :
    (∀ k, k + 1 < minC →
      ¬ ∃ c ∈ mfcRunOut minC maxGap thr i d t k, c.objectId = i) ∧
    (∃ c ∈ mfcRunOut minC maxGap thr i d t (minC - 1), c.objectId = i) := by
  have main : ∀ k, k + 1 ≤ minC →
      ((∃ c ∈ mfcRunOut minC maxGap thr i d t k, c.objectId = i) ↔
        shouldConfirm minC maxGap (runDetections d t (k + 1)) = true) := by
    intro k hk
    obtain ⟨⟨hm, hg, hf⟩, hnd, hproj⟩ :=
      mfcRun_invariant minC maxGap thr i d t k (by omega)
    have hnds : (([(i, d)] : List (ℕ × Detection)).map (fun p => p.1)).Nodup := by
      simp
    have hmem : (i, d) ∈ ([(i, d)] : List (ℕ × Detection)) :=
      List.mem_singleton.mpr rfl
    have hiff := mfcUpdate_out_iff (mfcRun minC maxGap thr i d t k) [(i, d)] t
      hnds i d hmem
    rw [show mfcRunOut minC maxGap thr i d t k =
      (mfcUpdate (mfcRun minC maxGap thr i d t k) [(i, d)] t).2 from rfl, hiff]
    have hconf : confFlagAt { mfcRun minC maxGap thr i d t k with
        frameCount := (mfcRun minC maxGap thr i d t k).frameCount + 1 } t i d =
        shouldConfirm minC maxGap (runDetections d t (k + 1)) := by
      show shouldConfirm (mfcRun minC maxGap thr i d t k).minConsecutiveFrames
        (mfcRun minC maxGap thr i d t k).maxFrameGap
        (boundedAppend
          ((mfcRun minC maxGap thr i d t k).minConsecutiveFrames +
            (mfcRun minC maxGap thr i d t k).maxFrameGap)
          ((alookup (mfcRun minC maxGap thr i d t k).history i).getD
            emptyHistory).detections
          ⟨d, (mfcRun minC maxGap thr i d t k).frameCount + 1, t⟩) = _
      rw [hm, hg, hf, getD_detections, hproj]
      by_cases hk0 : k = 0
      · subst hk0
        rw [if_pos rfl]
        rw [show ((none : Option (List HistEntry)).getD []) = [] from rfl]
        rw [boundedAppend_of_le _ _ _ (by simp; omega)]
        rfl
      · rw [if_neg hk0, Option.getD_some,
          boundedAppend_of_le _ _ _ (by rw [runDetections_length]; omega),
          ← runDetections_succ]
    rw [hconf]
  refine ⟨?_, ?_⟩
  · intro k hklt hex
    have hc := (main k (by omega)).mp hex
    rw [shouldConfirm_short minC maxGap (k + 1) hklt d t] at hc
    exact absurd hc (by simp)
  · refine (main (minC - 1) (by omega)).mpr ?_
    rw [show minC - 1 + 1 = minC from by omega]
    exact shouldConfirm_runDetections minC maxGap h1 d t

/-- A concrete detection used in the witnesses below. -/
def sampleDet : Detection := ⟨"human", 9/10, 100, 100, 150, 200⟩

/-- C3: for every tracked id, after its current-frame history entry is
appended, `MultiFrameConfirmation.update` reports the track as confirmed iff
the bounded history holds at least `min_consecutive_frames` entries and every
gap between consecutive frame indices of the most recent
`min_consecutive_frames` entries (gap = frame-index difference minus 1) is at
most `max_frame_gap`; consequently a track fed a detection on exactly
`min_consecutive_frames` consecutive frames is first reported confirmed on the
last of those frames and on no earlier frame. -/
theorem mfc_confirmation_spec :
    (∀ (s : MFCState) (tracked : List (ℕ × Detection)) (t : ℚ),
      1 ≤ s.minConsecutiveFrames →
      (tracked.map (fun p => p.1)).Nodup →
      ∀ i d, (i, d) ∈ tracked →
        ((∃ c ∈ (mfcUpdate s tracked t).2, c.objectId = i) ↔
          SpecConfirm s.minConsecutiveFrames s.maxFrameGap
            (boundedAppend (s.minConsecutiveFrames + s.maxFrameGap)
              ((alookup s.history i).getD emptyHistory).detections
              ⟨d, s.frameCount + 1, t⟩))) ∧
    (∀ (minC maxGap : ℕ) (thr : ℚ) (i : ℕ) (d : Detection) (t : ℚ),
      1 ≤ minC →
      (∀ k, k + 1 < minC →
        ¬ ∃ c ∈ mfcRunOut minC maxGap thr i d t k, c.objectId = i) ∧
      (∃ c ∈ mfcRunOut minC maxGap thr i d t (minC - 1), c.objectId = i)) := by
  constructor
  · intro s tracked t h1 hnd i d hmem
    rw [mfcUpdate_out_iff s tracked t hnd i d hmem]
    have hcf : confFlagAt { s with frameCount := s.frameCount + 1 } t i d =
        shouldConfirm s.minConsecutiveFrames s.maxFrameGap
          (boundedAppend (s.minConsecutiveFrames + s.maxFrameGap)
            ((alookup s.history i).getD emptyHistory).detections
            ⟨d, s.frameCount + 1, t⟩) := rfl
    rw [hcf]
    exact shouldConfirm_iff _ _ h1 _
  · intro minC maxGap thr i d t h1
    exact mfcRun_out minC maxGap thr i d t h1

/-- Witness for `mfc_confirmation_spec`: a fresh two-frame confirmation run
of a single track. -/
theorem mfc_confirmation_spec_witness :
    (1 ≤ (mfcInit 2 0 50).minConsecutiveFrames ∧
      ((∃ c ∈ (mfcUpdate (mfcInit 2 0 50) [(7, sampleDet)] 1).2, c.objectId = 7) ↔
        SpecConfirm (mfcInit 2 0 50).minConsecutiveFrames
          (mfcInit 2 0 50).maxFrameGap
          (boundedAppend
            ((mfcInit 2 0 50).minConsecutiveFrames + (mfcInit 2 0 50).maxFrameGap)
            ((alookup (mfcInit 2 0 50).history 7).getD emptyHistory).detections
            ⟨sampleDet, (mfcInit 2 0 50).frameCount + 1, 1⟩))) ∧
    ((1 : ℕ) ≤ 2 ∧
      ∃ c ∈ mfcRunOut 2 0 50 7 sampleDet 1 (2 - 1), c.objectId = 7) :=
  ⟨⟨by with_unfolding_all decide,
    mfc_confirmation_spec.1 (mfcInit 2 0 50) [(7, sampleDet)] 1 (by with_unfolding_all decide)
      (by with_unfolding_all decide) 7 sampleDet (List.mem_singleton.mpr rfl)⟩,
   ⟨by with_unfolding_all decide, (mfc_confirmation_spec.2 2 0 50 7 sampleDet 1 (by with_unfolding_all decide)).2⟩⟩

/-- C4 (amended): once a track's confirmed flag has been set, every later
`update` keeps the flag set and keeps the track in `confirmed_obstacles`, as
long as the track's history entry survives the inactivity-timeout cleanup.
(The track is not necessarily in the per-frame confirmed output: see the
counterexample.) -/
theorem mfc_confirmed_sticky (s : MFCState) (tracked : List (ℕ × Detection))
    (t : ℚ) (j : ℕ) (h : TrackHistory)
    (hndk : (s.history.map (fun p => p.1)).Nodup)
    (hl : alookup s.history j = some h) (hc : h.confirmed = true) :
    (∀ h', alookup (mfcUpdate s tracked t).1.history j = some h' →
      h'.confirmed = true) ∧
    ((alookup s.confirmedObstacles j).isSome = true →
      (alookup (mfcUpdate s tracked t).1.history j).isSome = true →
      (alookup (mfcUpdate s tracked t).1.confirmedObstacles j).isSome = true) := by
  obtain ⟨h1, hl1, hc1⟩ := foldl_mfcStep_confirmed_persist tracked t
    ({ s with frameCount := s.frameCount + 1 }, []) j h hl hc
  have hndf : ((tracked.foldl (mfcStep t)
      ({ s with frameCount := s.frameCount + 1 }, [])).1.history.map
      (fun p => p.1)).Nodup :=
    foldl_mfcStep_history_nodup tracked t _ hndk
  have hfilter := alookup_filter_of_nodup
    (tracked.foldl (mfcStep t) ({ s with frameCount := s.frameCount + 1 }, [])).1.history
    (fun p => !(staleAt t p)) j h1 hndf hl1
  constructor
  · intro h' hl'
    have hl2 : alookup ((tracked.foldl (mfcStep t)
        ({ s with frameCount := s.frameCount + 1 }, [])).1.history.filter
        (fun p => !(staleAt t p))) j = some h' := hl'
    rw [hfilter] at hl2
    by_cases hq : (!(staleAt t (j, h1))) = true
    · rw [if_pos hq] at hl2
      injection hl2 with he
      rw [← he]
      exact hc1
    · rw [if_neg hq] at hl2
      exact absurd hl2 (by simp)
  · intro hco hsurv
    have hcof := foldl_mfcStep_confObs_persist tracked t
      ({ s with frameCount := s.frameCount + 1 }, []) j hco
    exact cleanupOld_confObs_keep t _ j hndf hsurv hcof

/-- Witness for `mfc_confirmed_sticky`: the state of a fresh
`MultiFrameConfirmation(2, 0, 50)` after two consecutive updates tracking
object 7 (which confirm it). -/
theorem mfc_confirmed_sticky_witness :
    (((mfcUpdate (mfcUpdate (mfcInit 2 0 50) [(7, sampleDet)] 1).1
        [(7, sampleDet)] 1).1.history.map (fun p => p.1)).Nodup ∧
      ((alookup (mfcUpdate (mfcUpdate (mfcInit 2 0 50) [(7, sampleDet)] 1).1
          [(7, sampleDet)] 1).1.history 7).map (fun h => h.confirmed)) = some true) ∧
    (∀ h', alookup (mfcUpdate (mfcUpdate (mfcUpdate (mfcInit 2 0 50)
        [(7, sampleDet)] 1).1 [(7, sampleDet)] 1).1 [] 1).1.history 7 = some h' →
      h'.confirmed = true) := by
  refine ⟨⟨by with_unfolding_all decide, by with_unfolding_all decide⟩, ?_⟩
  exact (mfc_confirmed_sticky
    (mfcUpdate (mfcUpdate (mfcInit 2 0 50) [(7, sampleDet)] 1).1
      [(7, sampleDet)] 1).1 [] 1 7
    ((alookup (mfcUpdate (mfcUpdate (mfcInit 2 0 50) [(7, sampleDet)] 1).1
      [(7, sampleDet)] 1).1.history 7).getD emptyHistory)
    (by with_unfolding_all decide) (by with_unfolding_all decide) (by with_unfolding_all decide)).1

/-- C4 counterexample: a track of a `MultiFrameConfirmation(2, 0, 50)` is
confirmed on frames 1-2, is absent on frame 3, and is tracked again on
frame 4.  Before the fourth update its confirmed flag is set; in the fourth
update it is present in `tracked_objects`, yet the per-frame confirmed output
is empty because its gap test now fails — contradicting the claim that a
confirmed track always appears in the confirmed output. -/
theorem mfc_confirmed_missing_from_output :
    ((alookup (mfcUpdate (mfcUpdate (mfcUpdate (mfcInit 2 0 50)
        [(7, sampleDet)] 1).1 [(7, sampleDet)] 1).1 [] 1).1.history 7).map
      (fun h => h.confirmed)) = some true ∧
    (mfcUpdate (mfcUpdate (mfcUpdate (mfcUpdate (mfcInit 2 0 50)
        [(7, sampleDet)] 1).1 [(7, sampleDet)] 1).1 [] 1).1
      [(7, sampleDet)] 1).2 = [] ∧
    (alookup (mfcUpdate (mfcUpdate (mfcUpdate (mfcUpdate (mfcInit 2 0 50)
        [(7, sampleDet)] 1).1 [(7, sampleDet)] 1).1 [] 1).1
      [(7, sampleDet)] 1).1.history 7).isSome = true := by
  refine ⟨by with_unfolding_all decide, by with_unfolding_all decide, by with_unfolding_all decide⟩

/-- C10: `ObstacleTracker.update` returns the full mapping of still-registered
tracks — an unmatched track stays in the returned mapping with its previously
stored detection unchanged while its counter stays within `max_disappeared`,
and a pre-existing track vanishes from the returned mapping only by
deregistration — and `MultiFrameConfirmation.update` appends a history entry
for every id present in `tracked_objects`, on every frame. -/
theorem tracker_returns_all_spec :
    (∀ (s : TrackerState) (dets : List Detection), TrackerInv s →
      ∀ t ∈ s.tracks,
        ((dets = [] ∨ t.id ∈ (matchPhase s dets).2) →
          t.disappeared + 1 ≤ s.maxDisappeared →
          findTrack (trackerUpdate s dets).tracks t.id =
            some ⟨t.id, t.det, t.disappeared + 1⟩) ∧
        (findTrack (trackerUpdate s dets).tracks t.id = none →
          s.maxDisappeared < t.disappeared + 1)) ∧
    (∀ (m : MFCState) (tracked : List (ℕ × Detection)) (tt : ℚ),
      (m.history.map (fun p => p.1)).Nodup →
      (tracked.map (fun p => p.1)).Nodup →
      ∀ p ∈ tracked,
        ∃ h', alookup (mfcUpdate m tracked tt).1.history p.1 = some h' ∧
          h'.detections = boundedAppend
            (m.minConsecutiveFrames + m.maxFrameGap)
            ((alookup m.history p.1).getD emptyHistory).detections
            ⟨p.2, m.frameCount + 1, tt⟩) := by
  constructor
  · intro s dets hinv t ht
    constructor
    · intro hcase hle
      have hstep : findTrack (trackerUpdate s dets).tracks t.id =
          if s.maxDisappeared < t.disappeared + 1 then none
          else some ⟨t.id, t.det, t.disappeared + 1⟩ := by
        rcases hcase with hd | hum
        · subst hd
          exact trackerUpdate_nil_track s hinv t ht
        · by_cases hd : dets = []
          · subst hd
            exact trackerUpdate_nil_track s hinv t ht
          · exact trackerUpdate_unmatched s dets hinv hd t ht hum
      rw [hstep, if_neg (not_lt.mpr hle)]
    · intro hnone
      exact trackerUpdate_none_imp s dets hinv t ht hnone
  · intro m tracked tt hndm hndt p hp
    obtain ⟨i, d⟩ := p
    refine ⟨refreshedHistory { m with frameCount := m.frameCount + 1 } tt i d,
      mfcUpdate_history_at m tracked tt hndm hndt i d hp, ?_⟩
    rw [refreshedHistory_detections]
    rfl

/-- Witness for `tracker_returns_all_spec`: a one-track tracker that sees no
detections, and a fresh confirmation instance fed one tracked object. -/
theorem tracker_returns_all_spec_witness :
    (TrackerInv (register (trackerInit 5) sampleDet) ∧
      findTrack (trackerUpdate (register (trackerInit 5) sampleDet) []).tracks 0 =
        some ⟨0, sampleDet, 1⟩) ∧
    (∃ h', alookup (mfcUpdate (mfcInit 5 3 50) [(7, sampleDet)] 1).1.history 7 =
        some h' ∧
      h'.detections = boundedAppend
        ((mfcInit 5 3 50).minConsecutiveFrames + (mfcInit 5 3 50).maxFrameGap)
        ((alookup (mfcInit 5 3 50).history 7).getD emptyHistory).detections
        ⟨sampleDet, (mfcInit 5 3 50).frameCount + 1, 1⟩) := by
  have hinv : TrackerInv (register (trackerInit 5) sampleDet) :=
    register_inv _ _ ⟨fun t ht => absurd ht (List.not_mem_nil t), List.nodup_nil⟩
  constructor
  · refine ⟨hinv, ?_⟩
    have := ((tracker_returns_all_spec.1 (register (trackerInit 5) sampleDet) []
      hinv ⟨0, sampleDet, 0⟩ (by with_unfolding_all decide)).1 (Or.inl rfl) (by with_unfolding_all decide))
    exact this
  · exact tracker_returns_all_spec.2 (mfcInit 5 3 50) [(7, sampleDet)] 1
      (by with_unfolding_all decide) (by with_unfolding_all decide) (7, sampleDet) (List.mem_singleton.mpr rfl)

/-! ### Per-frame pipeline (`main.py`, steps 5-6 of `process_frame`) -/

/-- Python's `round` to the nearest integer, ties to even (banker's
rounding), on exact rationals. -/
def pyRound (q : ℚ) : ℤ :=
  let n := ⌊q⌋
  let f := q - (n : ℚ)
  if f < 1/2 then n
  else if 1/2 < f then n + 1
  else if n % 2 = 0 then n else n + 1

/-- Python's `round(x, 2)`. -/
def round2 (q : ℚ) : ℚ := (pyRound (100 * q) : ℚ) / 100

/-- `round(x, 2)` on a possibly-infinite float (`round(inf, 2)` is `inf`). -/
def PyFloat.round2 (x : PyFloat) : PyFloat :=
  match x with
  | .inf => .inf
  | .val v => .val (RailTrack.round2 v)

/-- `DistanceEstimator.get_ttc_level` (lines 114-131) with the default
thresholds 20/40/60. -/
def get_ttc_level (ttc : PyFloat) : String :=
  if ttc.lt 20 then "critical"
  else if ttc.lt 40 then "high"
  else if ttc.lt 60 then "medium"
  else "low"

/-- An obstacle record as it enters steps 5-6 of
`RailTrackSystem.process_frame`, after confirmation and false-alert
filtering. -/
structure PipelineObstacle where
  cls : String
  confidence : ℚ
  bbox : ℚ × ℚ × ℚ × ℚ
  isStatic : Bool
deriving DecidableEq

/-- The record returned by `CollisionRiskAssessor.assess_risk`
(lines 209-246). -/
structure RiskAssessment where
  obstacle_class : String
  distance_m : PyFloat
  ttc_seconds : PyFloat
  ttc_level : String
  zone : String
  risk_score : ℚ
  risk_level : String
  is_static : Bool
deriving DecidableEq

/-- `CollisionRiskAssessor.assess_risk` with the default configuration
(focal length 800, train speed 60 km/h); the returned distance and TTC are
rounded to two decimals, the risk score is computed on the unrounded TTC. -/
def assess_risk (ob : PipelineObstacle) (zone : String) : RiskAssessment :=
  let distance := estimate_distance 800 ob.cls ob.bbox
  let ttc := calculate_ttc distance 60
  { obstacle_class := ob.cls,
    distance_m := distance.round2,
    ttc_seconds := ttc.round2,
    ttc_level := get_ttc_level ttc,
    zone := zone,
    risk_score := calculate_risk_score ob.cls zone ttc ob.isStatic,
    risk_level := get_risk_level (calculate_risk_score ob.cls zone ttc ob.isStatic),
    is_static := ob.isStatic }

/-- The part of a report from `IncidentReporter.generate_report`
(lines 223-260) that the claims mention: the reporter recomputes the severity
with its own classifier from the same incident fields. -/
structure IncidentReport where
  severity : String
  obstacle_type : String
  zone : String
  ttc_seconds : PyFloat
  distance_m : PyFloat
deriving DecidableEq

/-- `IncidentReporter.generate_report` on the incident assembled in
`process_frame`. -/
def generate_report (cls zone : String) (ttc distance : PyFloat)
    (isStatic : Bool) : IncidentReport :=
  ⟨classify cls zone ttc isStatic, cls, zone, ttc, distance⟩

/-- Steps 5-6 of `RailTrackSystem.process_frame` (`main.py` lines 137-175)
for one surviving obstacle on a `w × h` frame with the default zone geometry:
classify the zone, assess the risk, classify the severity of the assembled
incident, and generate/emit a report only when the severity is in
`['critical', 'high']`. -/
def processObstacle (w h : ℚ) (ob : PipelineObstacle) : Option IncidentReport :=
  let zone := classify_zone (defaultZoneConfig w h) ob.bbox
  let risk := assess_risk ob zone
  let severity := classify ob.cls zone risk.ttc_seconds ob.isStatic
  if severity = "critical" ∨ severity = "high" then
    some (generate_report ob.cls zone risk.ttc_seconds risk.distance_m ob.isStatic)
  else none

/-- The severity `process_frame` computes for one surviving obstacle. -/
def pipelineSeverity (w h : ℚ) (ob : PipelineObstacle) : String :=
  classify ob.cls (classify_zone (defaultZoneConfig w h) ob.bbox)
    (assess_risk ob (classify_zone (defaultZoneConfig w h) ob.bbox)).ttc_seconds
    ob.isStatic

/-- C8 (amended): for an obstacle that survived confirmation and filtering,
`process_frame` generates and emits an incident report iff the classified
severity is 'critical' or 'high'; severities 'medium' and 'low' produce no
report.  An emitted report carries exactly that severity. -/
theorem process_obstacle_spec (w h : ℚ) (ob : PipelineObstacle) :
    ((pipelineSeverity w h ob = "critical" ∨ pipelineSeverity w h ob = "high") →
      processObstacle w h ob = some (generate_report ob.cls
        (classify_zone (defaultZoneConfig w h) ob.bbox)
        (assess_risk ob (classify_zone (defaultZoneConfig w h) ob.bbox)).ttc_seconds
        (assess_risk ob (classify_zone (defaultZoneConfig w h) ob.bbox)).distance_m
        ob.isStatic)) ∧
    (pipelineSeverity w h ob ≠ "critical" → pipelineSeverity w h ob ≠ "high" →
      processObstacle w h ob = none) ∧
    (∀ r, processObstacle w h ob = some r →
      r.severity = pipelineSeverity w h ob) := by
  have key : processObstacle w h ob =
      (if pipelineSeverity w h ob = "critical" ∨ pipelineSeverity w h ob = "high"
       then some (generate_report ob.cls
         (classify_zone (defaultZoneConfig w h) ob.bbox)
         (assess_risk ob (classify_zone (defaultZoneConfig w h) ob.bbox)).ttc_seconds
         (assess_risk ob (classify_zone (defaultZoneConfig w h) ob.bbox)).distance_m
         ob.isStatic)
       else none) := rfl
  refine ⟨?_, ?_, ?_⟩
  · intro hs
    rw [key, if_pos hs]
  · intro h1 h2
    rw [key, if_neg (by rintro (hc | hc) <;> [exact h1 hc; exact h2 hc])]
  · intro r hr
    rw [key] at hr
    by_cases hs : (pipelineSeverity w h ob = "critical" ∨
        pipelineSeverity w h ob = "high")
    · rw [if_pos hs] at hr
      injection hr with hr
      rw [← hr]
      rfl
    · rw [if_neg hs] at hr
      exact absurd hr (by simp)

/-- Witness for `process_obstacle_spec`: a human centered on the track of a
640×480 frame, classified 'critical', gets a report. -/
theorem process_obstacle_spec_witness :
    (pipelineSeverity 640 480 ⟨"human", 9/10, (300, 300, 340, 348), false⟩ =
        "critical" ∨
     pipelineSeverity 640 480 ⟨"human", 9/10, (300, 300, 340, 348), false⟩ =
        "high") ∧
    processObstacle 640 480 ⟨"human", 9/10, (300, 300, 340, 348), false⟩ ≠ none := by
  have hs : pipelineSeverity 640 480 ⟨"human", 9/10, (300, 300, 340, 348), false⟩ =
      "critical" := by
    with_unfolding_all decide
  have hor : (pipelineSeverity 640 480 ⟨"human", 9/10, (300, 300, 340, 348), false⟩ =
      "critical" ∨
    pipelineSeverity 640 480 ⟨"human", 9/10, (300, 300, 340, 348), false⟩ =
      "high") := Or.inl hs
  refine ⟨hor, ?_⟩
  rw [(process_obstacle_spec 640 480 ⟨"human", 9/10, (300, 300, 340, 348), false⟩).1 hor]
  simp

/-- C8 counterexample: a confirmed animal in the warning zone of a 640×480
frame classifies as 'medium' — at least medium severity — yet `process_frame`
generates no incident report for it, because the code emits only for
severities in `['critical', 'high']`. -/
theorem medium_severity_not_reported :
    pipelineSeverity 640 480 ⟨"animal", 9/10, (167, 230, 217, 250), false⟩ =
      "medium" ∧
    processObstacle 640 480 ⟨"animal", 9/10, (167, 230, 217, 250), false⟩ =
      none := by
  exact ⟨by with_unfolding_all decide, by with_unfolding_all decide⟩

end RailTrack
